import Mathlib

/-
Verification of the LogZero forensic-timeline engine against its
natural-language specification.

The development shallowly embeds the Go sources: the `core.Event` record, the
Go `time` package's date arithmetic (as used by the parsers), the line parsers
(Linux syslog, web access, Windows text, Zeek), the CSV timestamp resolver,
the output sinks (JSON Lines, SQLite), the parser dispatch
(`GetParserForFile`) and the directory worker of the processor.

Layout: all definitions first — Go `time` calendar arithmetic (`absDate`,
`Date`, `AddDate`, `Sub`), the `Event` record, the line parsers (with their
per-line fallbacks), the Zeek parser, the CSV artifact timestamp resolution,
the output sinks, the parser dispatch and the directory worker — followed by
all theorems.
  8. Claim theorems
-/

namespace LogZero

set_option maxRecDepth 10000

/-- Go `time.daysBefore`: cumulative days before each month (non-leap). Index 0..12. -/
def daysBefore (m : Int) : Int :=
  if m ≤ 0 then 0
  else if m = 1 then 31
  else if m = 2 then 59
  else if m = 3 then 90
  else if m = 4 then 120
  else if m = 5 then 151
  else if m = 6 then 181
  else if m = 7 then 212
  else if m = 8 then 243
  else if m = 9 then 273
  else if m = 10 then 304
  else if m = 11 then 334
  else 365

/-- Go `isLeap`. -/
def isLeap (y : Int) : Bool :=
  decide (y % 4 = 0 ∧ (¬ y % 100 = 0 ∨ y % 400 = 0))

/-- Go `daysSinceEpoch(year)`, rebased: number of days from 0001-01-01 to Jan 1 of `year`
(Go works in uint64 with an offset that is a multiple of 400 years; with floor
division the offset cancels, so this matches Go for every representable time). -/
def daysSinceEpochY (year : Int) : Int :=
  let y := year - 1
  146097 * (y / 400) + 36524 * (y % 400 / 100) + 1461 * (y % 400 % 100 / 4) +
    365 * (y % 400 % 100 % 4)

/-- Day count (since 0001-01-01) of a civil date, following Go `Date`:
months are first normalized into [1,12] (Go `norm`), the day may be out of range
and is added linearly. -/
def dateToAbsDays (year month day : Int) : Int :=
  let yn := year + (month - 1) / 12
  let mn := (month - 1) % 12 + 1
  daysSinceEpochY yn + daysBefore (mn - 1) +
    (if isLeap yn ∧ 3 ≤ mn then 1 else 0) + (day - 1)

/- Pieces of Go `absDate` (wide form). -/
def era400 (d1 : Int) : Int := d1 / 146097

def rem400 (d1 : Int) : Int := d1 % 146097

/-- century within era, clamped (Go `n -= n >> 2`). -/
def cent100 (d1 : Int) : Int := rem400 d1 / 36524 - rem400 d1 / 36524 / 4

def rem100 (d1 : Int) : Int := rem400 d1 - 36524 * cent100 d1

def quad4 (d1 : Int) : Int := rem100 d1 / 1461

def rem4 (d1 : Int) : Int := rem100 d1 - 1461 * quad4 d1

/-- year within quad, clamped. -/
def yr1 (d1 : Int) : Int := rem4 d1 / 365 - rem4 d1 / 365 / 4

def ydayOf (d1 : Int) : Int := rem4 d1 - 365 * yr1 d1

def absYear (d1 : Int) : Int :=
  400 * era400 d1 + 100 * cent100 d1 + 4 * quad4 d1 + yr1 d1 + 1

/-- Inner month/day extraction of Go `absDate` (after the leap-day adjustment):
`day` is a 0-based day of a non-leap year. -/
def extractMD0 (day : Int) : Int × Int :=
  let m0 := day / 31
  let dend := daysBefore (m0 + 1)
  if dend ≤ day then (m0 + 2, day - dend + 1) else (m0 + 1, day - daysBefore m0 + 1)

/-- Month/day extraction from a day-of-year, following Go `absDate`'s tail. -/
def extractMD (leap : Bool) (yday : Int) : Int × Int :=
  if leap ∧ yday = 59 then (2, 29)
  else extractMD0 (if leap ∧ 59 < yday then yday - 1 else yday)

/-- Go `absDate(abs, full=true)`: day count since 0001-01-01 to (year, month, day). -/
def absDate (d1 : Int) : Int × Int × Int :=
  let year := absYear d1
  let md := extractMD (isLeap year) (ydayOf d1)
  (year, md.1, md.2)

/- GoTime: an instant is modeled as nanoseconds since the Unix epoch (Int).
Go stores wall seconds + nanoseconds; comparisons, `Sub` and `AddDate` are
defined off this absolute value exactly as in Go. -/
def nsPerDay : Int := 86400000000000

/-- days from 0001-01-01 to 1970-01-01 (Go `unixToInternal` / 86400). -/
def unixEpochDays : Int := 719162

def daysOfTime (t : Int) : Int := t / nsPerDay + unixEpochDays

def clockNsOf (t : Int) : Int := t % nsPerDay

/-- Go `Time.Date()`: the (year, month, day) of an instant. -/
def dateOf (t : Int) : Int × Int × Int := absDate (daysOfTime t)

def yearOf (t : Int) : Int := (dateOf t).1

def monthOf (t : Int) : Int := (dateOf t).2.1

def ofDaysClock (d1 clock : Int) : Int := (d1 - unixEpochDays) * nsPerDay + clock

/-- Go `Date(y, m, d, clock..., UTC)` with the clock part already in range. -/
def goDate (y m d clock : Int) : Int := ofDaysClock (dateToAbsDays y m d) clock

/-- Go `Time.AddDate(dy, dm, dd)`. -/
def addDate (t dy dm dd : Int) : Int :=
  goDate ((dateOf t).1 + dy) ((dateOf t).2.1 + dm) ((dateOf t).2.2 + dd) (clockNsOf t)

/- Go `time.Duration` is an int64 nanosecond count; `Time.Sub` saturates at the
Duration range and `Duration.Abs` maps the minimum value to the maximum. -/
def maxDuration : Int := 9223372036854775807

def minDuration : Int := -9223372036854775808

/-- Go `Time.Sub`: nanosecond difference, saturating at the `Duration` range. -/
def subDur (t u : Int) : Int := max minDuration (min (t - u) maxDuration)

/-- Go `Duration.Abs`: absolute value, with `minDuration` mapped to `maxDuration`. -/
def absDur (d : Int) : Int :=
  if d = minDuration then maxDuration else if d < 0 then -d else d

/-- The zero `time.Time` (January 1, year 1, 00:00:00 UTC) as ns since the Unix
epoch; `Time.IsZero` compares against it. -/
def goZeroTime : Int := ofDaysClock (dateToAbsDays 1 1 1) 0

/-- `LinuxSyslogParser.Parse`, RFC-3164 year-boundary correction
(src/parsers/linux.go lines 109-131): given the wall clock `now`, the seeded
timestamp `t0` (record's Mon/day/clock with the current year), and the
previously observed timestamp `last` (`goZeroTime` when none), produce the
corrected timestamp.  The two year rules are an if/else-if chain; the 30-day
streaming rule compares `Sub(..).Abs()` distances. -/
def rfc3164YearAdjust (now t0 last : Int) : Int :=
  let ts1 :=
    if monthOf now ≤ 2 ∧ 11 ≤ monthOf t0 then addDate t0 (-1) 0 0
    else if addDate now 0 6 0 < t0 then addDate t0 (-1) 0 0
    else t0
  if ¬ last = goZeroTime ∧ ts1 < addDate last 0 0 (-30) then
    if absDur (subDur (addDate ts1 1 0 0) last) < absDur (subDur ts1 last) then
      addDate ts1 1 0 0
    else ts1
  else ts1

/-- The specification's wording of the year reconstruction (spec §4.1): the two
year rules applied in order, then the streaming rule comparing the plain
mathematical distances `|t - last|` and `|t+1y - last|`. -/
def specYearRules (now t0 last : Int) : Int :=
  let t1 := if monthOf now ≤ 2 ∧ 11 ≤ monthOf t0 then addDate t0 (-1) 0 0 else t0
  let t2 := if addDate now 0 6 0 < t1 then addDate t1 (-1) 0 0 else t1
  if ¬ last = goZeroTime ∧ t2 < addDate last 0 0 (-30) then
    if (addDate t2 1 0 0 - last).natAbs < (t2 - last).natAbs then addDate t2 1 0 0
    else t2
  else t2

/-- The specification's rules with the distance comparison taken as the code
computes it (saturating Go `Duration`); this is the amended reading. -/
def specYearRulesSat (now t0 last : Int) : Int :=
  let t1 := if monthOf now ≤ 2 ∧ 11 ≤ monthOf t0 then addDate t0 (-1) 0 0 else t0
  let t2 := if addDate now 0 6 0 < t1 then addDate t1 (-1) 0 0 else t1
  if ¬ last = goZeroTime ∧ t2 < addDate last 0 0 (-30) then
    if absDur (subDur (addDate t2 1 0 0) last) < absDur (subDur t2 last) then
      addDate t2 1 0 0
    else t2
  else t2

/- Section 2: the canonical Event record (src/core/event.go). -/
/-- `core.Event`.  Timestamps are ns since the Unix epoch (`GoTime`).  `Score`
is a float64 in the source; the core pipeline only ever stores 0.0 and no claim
depends on float semantics, so it is carried as an `Int`. -/
structure Event where
  timestamp : Int
  source : String
  eventType : String
  eventId : Int
  user : String
  host : String
  message : String
  path : String
  tags : List String
  score : Int
  summary : String
deriving DecidableEq, Repr

/-- `core.NewEvent`: tags/score/summary default to empty. -/
def newEvent (timestamp : Int) (source eventType : String) (eventId : Int)
    (user host message path : String) : Event :=
  ⟨timestamp, source, eventType, eventId, user, host, message, path, [], 0, ""⟩

/- String utilities mirroring the Go standard library on ASCII data
(the log fixtures of the claims are ASCII; all functions work on `String.data`
so that concrete runs reduce in the kernel). -/
/-- Go regexp `\s` / `unicode.IsSpace` on ASCII: tab, newline, vertical tab,
form feed, carriage return, space. -/
def isGoSpace (c : Char) : Bool :=
  c = ' ' ∨ c = '\t' ∨ c = '\n' ∨ c = '\x0b' ∨ c = '\x0c' ∨ c = '\r'

def isDigitCh (c : Char) : Bool := '0' ≤ c ∧ c ≤ '9'

def isUpperCh (c : Char) : Bool := 'A' ≤ c ∧ c ≤ 'Z'

def isLowerCh (c : Char) : Bool := 'a' ≤ c ∧ c ≤ 'z'

/-- `strings.TrimSpace(line) == ""`. -/
def isBlankLine (s : String) : Bool := s.data.all isGoSpace

/-- ASCII `strings.ToLower`. -/
def toLowerCh (c : Char) : Char :=
  if isUpperCh c then Char.ofNat (c.toNat + 32) else c

def toLowerStr (s : String) : String := ⟨s.data.map toLowerCh⟩

/-- list prefix test (used by the Go `strings.HasPrefix` model). -/
def listIsPre : List Char → List Char → Bool
  | [], _ => true
  | _ :: _, [] => false
  | p :: ps, c :: cs => p = c ∧ listIsPre ps cs

def goHasPre (p s : String) : Bool := listIsPre p.data s.data

def goHasSuffix (suf s : String) : Bool := listIsPre suf.data.reverse s.data.reverse

/-- substring containment (Go `strings.Contains`). -/
def listContainsSub (needle : List Char) : List Char → Bool
  | [] => needle = []
  | c :: cs => listIsPre needle (c :: cs) ∨ listContainsSub needle cs

def goContains (s sub : String) : Bool := listContainsSub sub.data s.data

/-- decimal value of a digit run (the run is known to be all digits). -/
def natOfDigits (cs : List Char) : Int :=
  cs.foldl (fun a c => a * 10 + (Int.ofNat c.toNat - 48)) 0

/-- Go `strings.Split` (non-empty separator; the empty separator splits into
single characters). Implemented with fuel = input length. -/
def splitGoF (sep : List Char) : Nat → List Char → List Char → List (List Char)
  | 0, rest, cur => [cur.reverse ++ rest]
  | _ + 1, [], cur => [cur.reverse]
  | n + 1, c :: rest, cur =>
    if sep ≠ [] ∧ listIsPre sep (c :: rest) then
      cur.reverse :: splitGoF sep n (List.drop (sep.length - 1) rest) []
    else splitGoF sep n rest (c :: cur)

def goSplit (s sep : String) : List String :=
  if sep.data = [] then s.data.map (fun c => ⟨[c]⟩)
  else (splitGoF sep.data s.data.length s.data []).map fun l => (⟨l⟩ : String)

/-- `filepath.Base` (slash-separated paths; the claims use forward slashes). -/
def filepathBase (p : String) : String :=
  match (goSplit p "/").reverse with
  | [] => p
  | last :: _ => if last = "" then p else last

/-- `filepath.Ext`: the suffix beginning at the final dot of the last element
(empty if there is none). -/
def filepathExt (p : String) : String :=
  let rec go : List Char → List Char → String
    | [], _ => ""
    | c :: rest, acc =>
      if c = '/' then ""
      else if c = '.' then ⟨('.' :: acc)⟩
      else go rest (c :: acc)
  go p.data.reverse []

/- Section 3: line parsers (src/parsers/linux.go, unnamed webaccess.go,
src/parsers/windows.go).  The anchored Go regexes are hand-translated into
deterministic scanners; every character class in the patterns is disjoint from
its follower, so maximal-munch scanning coincides with Go's leftmost-first
backtracking semantics. -/
def take2Digits : List Char → Option (Int × List Char)
  | a :: b :: rest =>
    if isDigitCh a ∧ isDigitCh b then some (natOfDigits [a, b], rest) else none
  | _ => none

def take4Digits : List Char → Option (Int × List Char)
  | a :: b :: c :: d :: rest =>
    if isDigitCh a ∧ isDigitCh b ∧ isDigitCh c ∧ isDigitCh d then
      some (natOfDigits [a, b, c, d], rest)
    else none
  | _ => none

def expectCh (c : Char) : List Char → Option (List Char)
  | x :: rest => if x = c then some rest else none
  | [] => none

/-- the common regex tail `\s+(\S+)\s+([^:]+):\s+(.*)$` of the two syslog
patterns: returns (host, proc, msg). -/
def matchSyslogTail (cs : List Char) : Option (String × String × String) :=
  let sp2 := cs.span isGoSpace
  if sp2.1 = [] then none else
  let hostS := sp2.2.span (fun c => ¬ isGoSpace c)
  if hostS.1 = [] then none else
  let sp3 := hostS.2.span isGoSpace
  if sp3.1 = [] then none else
  let procS := sp3.2.span (fun c => ¬ c = ':')
  if procS.1 = [] then none else
  match expectCh ':' procS.2 with
  | none => none
  | some r12 =>
    let sp4 := r12.span isGoSpace
    if sp4.1 = [] then none
    else some (⟨hostS.1⟩, ⟨procS.1⟩, ⟨sp4.2⟩)

/-- captures of `rfc3164Pattern`
`^([A-Z][a-z]{2}\s+\d{1,2}\s+\d{2}:\d{2}:\d{2})\s+(\S+)\s+([^:]+):\s+(.*)$`;
the whitespace runs inside group 1 are kept because `time.Parse` of the seeded
string is sensitive to them. -/
structure Rfc3164Caps where
  monStr : String
  spMonDay : List Char
  day : Int
  spDayTime : List Char
  hh : Int
  mm : Int
  ss : Int
  host : String
  proc : String
  msg : String
deriving DecidableEq, Repr

def matchRFC3164 (line : String) : Option Rfc3164Caps :=
  match line.data with
  | c0 :: c1 :: c2 :: rest =>
    if isUpperCh c0 ∧ isLowerCh c1 ∧ isLowerCh c2 then
      let sp1 := rest.span isGoSpace
      if sp1.1 = [] then none else
      let ds := sp1.2.span isDigitCh
      if ds.1.length = 0 ∨ 3 ≤ ds.1.length then none else
      let sp2 := ds.2.span isGoSpace
      if sp2.1 = [] then none else
      match take2Digits sp2.2 with
      | none => none
      | some (hh, r3) =>
      match expectCh ':' r3 with
      | none => none
      | some r4 =>
      match take2Digits r4 with
      | none => none
      | some (mm, r5) =>
      match expectCh ':' r5 with
      | none => none
      | some r6 =>
      match take2Digits r6 with
      | none => none
      | some (ss, r7) =>
      match matchSyslogTail r7 with
      | none => none
      | some (host, proc, msg) =>
        some ⟨⟨[c0, c1, c2]⟩, sp1.1, natOfDigits ds.1, sp2.1, hh, mm, ss, host, proc, msg⟩
    else none
  | _ => none

/-- captures of `rfc5424Pattern`
`^(\d{4}-\d{2}-\d{2}T\d{2}:\d{2}:\d{2}(?:\.\d+)?(?:Z|[+-]\d{2}:\d{2}))\s+(\S+)\s+([^:]+):\s+(.*)$`.
`offNs` is the numeric zone offset in ns (0 for `Z`). -/
structure Rfc5424Caps where
  y : Int
  mo : Int
  d : Int
  hh : Int
  mm : Int
  ss : Int
  frac : List Char
  offNs : Int
  host : String
  proc : String
  msg : String
deriving DecidableEq, Repr

def matchZone : List Char → Option (Int × List Char)
  | 'Z' :: rest => some (0, rest)
  | '+' :: rest =>
    match take2Digits rest with
    | none => none
    | some (oh, r1) =>
      match expectCh ':' r1 with
      | none => none
      | some r2 =>
        match take2Digits r2 with
        | none => none
        | some (om, r3) => some ((oh * 3600 + om * 60) * 1000000000, r3)
  | '-' :: rest =>
    match take2Digits rest with
    | none => none
    | some (oh, r1) =>
      match expectCh ':' r1 with
      | none => none
      | some r2 =>
        match take2Digits r2 with
        | none => none
        | some (om, r3) => some (-((oh * 3600 + om * 60) * 1000000000), r3)
  | _ => none

def matchRFC5424 (line : String) : Option Rfc5424Caps :=
  match take4Digits line.data with
  | none => none
  | some (y, r1) =>
  match expectCh '-' r1 with
  | none => none
  | some r2 =>
  match take2Digits r2 with
  | none => none
  | some (mo, r3) =>
  match expectCh '-' r3 with
  | none => none
  | some r4 =>
  match take2Digits r4 with
  | none => none
  | some (d, r5) =>
  match expectCh 'T' r5 with
  | none => none
  | some r6 =>
  match take2Digits r6 with
  | none => none
  | some (hh, r7) =>
  match expectCh ':' r7 with
  | none => none
  | some r8 =>
  match take2Digits r8 with
  | none => none
  | some (mm, r9) =>
  match expectCh ':' r9 with
  | none => none
  | some r10 =>
  match take2Digits r10 with
  | none => none
  | some (ss, r11) =>
  let fr : Option (List Char × List Char) :=
    match r11 with
    | '.' :: r12 =>
      let fs := r12.span isDigitCh
      if fs.1 = [] then none else some (fs.1, fs.2)
    | _ => some ([], r11)
  match fr with
  | none => none
  | some (frac, r13) =>
  match matchZone r13 with
  | none => none
  | some (offNs, r14) =>
  match matchSyslogTail r14 with
  | none => none
  | some (host, proc, msg) => some ⟨y, mo, d, hh, mm, ss, frac, offNs, host, proc, msg⟩

/-- Go `daysIn(m, year)`. -/
def daysIn (m y : Int) : Int :=
  if m = 2 ∧ isLeap y then 29 else daysBefore m - daysBefore (m - 1)

/-- fractional-second digits to nanoseconds (at most 9 digits are read). -/
def fracToNs (frac : List Char) : Int :=
  natOfDigits (frac.take 9) * natOfDigits ('1' :: List.replicate (9 - min frac.length 9) '0')

/-- `time.Parse(time.RFC3339, matches[1])` on the captured pieces: range checks,
then the UTC instant. -/
def parseRFC3339Caps (c : Rfc5424Caps) : Option Int :=
  if 1 ≤ c.mo ∧ c.mo ≤ 12 ∧ 1 ≤ c.d ∧ c.d ≤ daysIn c.mo c.y ∧
      c.hh ≤ 23 ∧ c.mm ≤ 59 ∧ c.ss ≤ 59 then
    some (goDate c.y c.mo c.d
      ((c.hh * 3600 + c.mm * 60 + c.ss) * 1000000000 + fracToNs c.frac) - c.offNs)
  else none

def monthNum : String → Option Int
  | "Jan" => some 1
  | "Feb" => some 2
  | "Mar" => some 3
  | "Apr" => some 4
  | "May" => some 5
  | "Jun" => some 6
  | "Jul" => some 7
  | "Aug" => some 8
  | "Sep" => some 9
  | "Oct" => some 10
  | "Nov" => some 11
  | "Dec" => some 12
  | _ => none

/-- `time.Parse("2006 Jan  2 15:04:05", ...)` with the single-space-layout
fallback, applied to `fmt.Sprintf("%d %s", currentYear, matches[1])`: the two
layouts together accept one or two literal spaces before the day and exactly
one before the clock. -/
def rfc3164SeedTime (year : Int) (c : Rfc3164Caps) : Option Int :=
  match monthNum c.monStr with
  | none => none
  | some mo =>
    if (c.spMonDay = [' '] ∨ c.spMonDay = [' ', ' ']) ∧ c.spDayTime = [' '] ∧
        1 ≤ c.day ∧ c.day ≤ daysIn mo year ∧ c.hh ≤ 23 ∧ c.mm ≤ 59 ∧ c.ss ≤ 59 then
      some (goDate year mo c.day ((c.hh * 3600 + c.mm * 60 + c.ss) * 1000000000))
    else none

/-- one line of `LinuxSyslogParser.Parse` (src/parsers/linux.go lines 72-163);
returns the event and the updated `lastTimestamp`.  `now` is the wall clock
captured at entry (`time.Now()`; the raw fallback and the unparseable-time
fallbacks use it). -/
def linuxLine (now : Int) (source filePath : String) (lineNum lastTs : Int)
    (line : String) : Event × Int :=
  match matchRFC5424 line with
  | some caps =>
    let ts := (parseRFC3339Caps caps).getD now
    (newEvent ts source "Syslog" lineNum "" caps.host
      ("[" ++ caps.proc ++ "] " ++ caps.msg) filePath, ts)
  | none =>
    match matchRFC3164 line with
    | some caps =>
      let ts :=
        match rfc3164SeedTime (yearOf now) caps with
        | none => now
        | some t0 => rfc3164YearAdjust now t0 lastTs
      (newEvent ts source "Syslog" lineNum "" caps.host
        ("[" ++ caps.proc ++ "] " ++ caps.msg) filePath, ts)
    | none => (newEvent now source "SyslogRaw" lineNum "" "" line filePath, lastTs)

def linuxParseAux (now : Int) (source filePath : String) :
    Int → Int → List String → List Event
  | _, _, [] => []
  | lineNum, lastTs, l :: rest =>
    if isBlankLine l then linuxParseAux now source filePath (lineNum + 1) lastTs rest
    else
      let r := linuxLine now source filePath lineNum lastTs l
      r.1 :: linuxParseAux now source filePath (lineNum + 1) r.2 rest

/-- `LinuxSyslogParser.Parse`, on the file's lines. -/
def linuxSyslogParse (now : Int) (filePath : String) (lines : List String) :
    List Event :=
  linuxParseAux now (filepathBase filePath) filePath 1 goZeroTime lines

/-- decimal digits of a Nat, least-significant first (fuel-bounded). -/
def decDigitsAux : Nat → Nat → List Char
  | 0, _ => []
  | fuel + 1, n =>
    if n < 10 then [Char.ofNat (48 + n)]
    else Char.ofNat (48 + n % 10) :: decDigitsAux fuel (n / 10)

/-- decimal string of an Int (`strconv.Itoa` / `fmt %d`). -/
def intToStr (n : Int) : String :=
  if n < 0 then ⟨'-' :: (decDigitsAux 30 (-n).toNat).reverse⟩
  else ⟨(decDigitsAux 30 n.toNat).reverse⟩

/-- captures of `clfPattern`
`^(\S+)\s+(\S+)\s+(\S+)\s+\[([^\]]+)\]\s+"([^"]+)"\s+(\d{3})\s+(\d+|-)(?:\s+"([^"]*)"\s+"([^"]*)")?.*$`
(only the groups the code reads are kept; the trailing optional referer /
user-agent groups and `.*` always succeed once group 7 has matched). -/
structure ClfCaps where
  remoteHost : String
  user : String
  timeStr : String
  request : String
  status : Int
deriving DecidableEq, Repr

def take3Digits : List Char → Option (Int × List Char)
  | a :: b :: c :: rest =>
    if isDigitCh a ∧ isDigitCh b ∧ isDigitCh c then some (natOfDigits [a, b, c], rest)
    else none
  | _ => none

def matchCLF (line : String) : Option ClfCaps :=
  let t1 := line.data.span (fun c => ¬ isGoSpace c)
  if t1.1 = [] then none else
  let s1 := t1.2.span isGoSpace
  if s1.1 = [] then none else
  let t2 := s1.2.span (fun c => ¬ isGoSpace c)
  if t2.1 = [] then none else
  let s2 := t2.2.span isGoSpace
  if s2.1 = [] then none else
  let t3 := s2.2.span (fun c => ¬ isGoSpace c)
  if t3.1 = [] then none else
  let s3 := t3.2.span isGoSpace
  if s3.1 = [] then none else
  match expectCh '[' s3.2 with
  | none => none
  | some r1 =>
  let tm := r1.span (fun c => ¬ c = ']')
  if tm.1 = [] then none else
  match expectCh ']' tm.2 with
  | none => none
  | some r2 =>
  let s4 := r2.span isGoSpace
  if s4.1 = [] then none else
  match expectCh '"' s4.2 with
  | none => none
  | some r3 =>
  let rq := r3.span (fun c => ¬ c = '"')
  if rq.1 = [] then none else
  match expectCh '"' rq.2 with
  | none => none
  | some r4 =>
  let s5 := r4.span isGoSpace
  if s5.1 = [] then none else
  match take3Digits s5.2 with
  | none => none
  | some (st, r5) =>
  let s6 := r5.span isGoSpace
  if s6.1 = [] then none else
  let sz := s6.2.span isDigitCh
  let dash : Bool := match s6.2 with | '-' :: _ => true | _ => false
  if sz.1 = [] ∧ dash = false then none
  else some ⟨⟨t1.1⟩, ⟨t3.1⟩, ⟨tm.1⟩, ⟨rq.1⟩, st⟩

/-- `time.Parse("02/Jan/2006:15:04:05 -0700", timeStr)`. -/
def parseCLFTime (s : String) : Option Int :=
  match take2Digits s.data with
  | none => none
  | some (d, r1) =>
  match expectCh '/' r1 with
  | none => none
  | some r2 =>
  match r2 with
  | a :: b :: c :: r3 =>
    match monthNum ⟨[a, b, c]⟩ with
    | none => none
    | some mo =>
    match expectCh '/' r3 with
    | none => none
    | some r4 =>
    match take4Digits r4 with
    | none => none
    | some (y, r5) =>
    match expectCh ':' r5 with
    | none => none
    | some r6 =>
    match take2Digits r6 with
    | none => none
    | some (hh, r7) =>
    match expectCh ':' r7 with
    | none => none
    | some r8 =>
    match take2Digits r8 with
    | none => none
    | some (mm, r9) =>
    match expectCh ':' r9 with
    | none => none
    | some r10 =>
    match take2Digits r10 with
    | none => none
    | some (ss, r11) =>
    match expectCh ' ' r11 with
    | none => none
    | some r12 =>
    let sign : Option (Int × List Char) :=
      match r12 with
      | '+' :: r => some (1, r)
      | '-' :: r => some (-1, r)
      | _ => none
    match sign with
    | none => none
    | some (sg, r13) =>
    match take2Digits r13 with
    | none => none
    | some (oh, r14) =>
    match take2Digits r14 with
    | none => none
    | some (om, r15) =>
    if r15 = [] ∧ 1 ≤ d ∧ d ≤ daysIn mo y ∧ hh ≤ 23 ∧ mm ≤ 59 ∧ ss ≤ 59 then
      some (goDate y mo d ((hh * 3600 + mm * 60 + ss) * 1000000000) -
        sg * (oh * 3600 + om * 60) * 1000000000)
    else none
  | _ => none

/-- one line of `WebAccessParser.Parse` (unnamed webaccess source, lines 60-128);
an unparseable time leaves the zero value, an unmatched line becomes a
`WebAccessRaw` event with the zero timestamp. -/
def webLine (source filePath : String) (lineNum : Int) (line : String) : Event :=
  match matchCLF line with
  | some caps =>
    let user := if caps.user = "-" then "" else caps.user
    let ts := (parseCLFTime caps.timeStr).getD goZeroTime
    let reqParts := goSplit caps.request " "
    let method := (reqParts.head?).getD ""
    let path := (reqParts.drop 1).headD ""
    let msg := method ++ " " ++ path ++ " (Status: " ++ intToStr caps.status ++ ")"
    newEvent ts source "WebAccess" lineNum user caps.remoteHost msg filePath
  | none => newEvent goZeroTime source "WebAccessRaw" lineNum "" "" line filePath

def statelessParseAux (f : Int → String → Event) : Int → List String → List Event
  | _, [] => []
  | n, l :: rest =>
    if isBlankLine l then statelessParseAux f (n + 1) rest
    else f n l :: statelessParseAux f (n + 1) rest

/-- `WebAccessParser.Parse` on the file's lines. -/
def webAccessParse (filePath : String) (lines : List String) : List Event :=
  statelessParseAux (webLine (filepathBase filePath) filePath) 1 lines

/-- `truncateLine` (src/parsers/parser.go lines 77-82): lines longer than 64 KiB
are cut before regex matching (bytes in Go; characters here, ASCII data). -/
def truncateLine (s : String) : String := ⟨s.data.take 65536⟩

/-- captures of the two `WindowsTextParser` patterns
`^(\d{4}-\d{2}-\d{2}\s+\d{2}:\d{2}:\d{2}),\s+(\S+)\s+(.*)$` and
`^(\d{4}/\d{2}/\d{2}\s+\d{2}:\d{2}:\d{2})\s+(\S+)\s+(.*)$`;
`slashSep` records which one matched, and the whitespace run inside group 1 is
kept because `time.Parse` requires a single space. -/
structure WinTextCaps where
  y : Int
  mo : Int
  d : Int
  spMid : List Char
  hh : Int
  mm : Int
  ss : Int
  slashSep : Bool
  logType : String
  msg : String
deriving DecidableEq, Repr

def matchWinTextWith (sep : Char) (comma : Bool) (line : String) : Option WinTextCaps :=
  match take4Digits line.data with
  | none => none
  | some (y, r1) =>
  match expectCh sep r1 with
  | none => none
  | some r2 =>
  match take2Digits r2 with
  | none => none
  | some (mo, r3) =>
  match expectCh sep r3 with
  | none => none
  | some r4 =>
  match take2Digits r4 with
  | none => none
  | some (d, r5) =>
  let sp := r5.span isGoSpace
  if sp.1 = [] then none else
  match take2Digits sp.2 with
  | none => none
  | some (hh, r6) =>
  match expectCh ':' r6 with
  | none => none
  | some r7 =>
  match take2Digits r7 with
  | none => none
  | some (mm, r8) =>
  match expectCh ':' r8 with
  | none => none
  | some r9 =>
  match take2Digits r9 with
  | none => none
  | some (ss, r10) =>
  let afterComma : Option (List Char) :=
    if comma then expectCh ',' r10 else some r10
  match afterComma with
  | none => none
  | some r11 =>
  let s2 := r11.span isGoSpace
  if s2.1 = [] then none else
  let ty := s2.2.span (fun c => ¬ isGoSpace c)
  if ty.1 = [] then none else
  let s3 := ty.2.span isGoSpace
  if s3.1 = [] then none
  else some ⟨y, mo, d, sp.1, hh, mm, ss, sep = '/', ⟨ty.1⟩, ⟨s3.2⟩⟩

def matchWinText (line : String) : Option WinTextCaps :=
  match matchWinTextWith '-' true line with
  | some c => some c
  | none => matchWinTextWith '/' false line

/-- `time.Parse("2006-01-02 15:04:05", ..)` then `time.Parse("2006/01/02 15:04:05", ..)`
applied to the captured group 1. -/
def winTextParseTime (c : WinTextCaps) : Option Int :=
  if c.spMid = [' '] ∧ 1 ≤ c.mo ∧ c.mo ≤ 12 ∧ 1 ≤ c.d ∧ c.d ≤ daysIn c.mo c.y ∧
      c.hh ≤ 23 ∧ c.mm ≤ 59 ∧ c.ss ≤ 59 then
    some (goDate c.y c.mo c.d ((c.hh * 3600 + c.mm * 60 + c.ss) * 1000000000))
  else none

/-- one line of `WindowsTextParser.Parse` (src/parsers/windows.go lines 56-117):
the line is truncated before matching; both fallbacks (unparseable time, raw)
use the wall clock `now`. -/
def winTextLine (now : Int) (source filePath : String) (lineNum : Int)
    (line : String) : Event :=
  match matchWinText (truncateLine line) with
  | some caps =>
    let ts := (winTextParseTime caps).getD now
    newEvent ts source "WindowsLog" lineNum "" ""
      ("[" ++ caps.logType ++ "] " ++ caps.msg) filePath
  | none => newEvent now source "WindowsLogRaw" lineNum "" "" line filePath

/-- `WindowsTextParser.Parse` on the file's lines. -/
def windowsTextParse (now : Int) (filePath : String) (lines : List String) :
    List Event :=
  statelessParseAux (winTextLine now (filepathBase filePath) filePath) 1 lines

/- Section 4: Zeek parser (src/parsers/zeek.go). -/
def toUpperCh (c : Char) : Char :=
  if isLowerCh c then Char.ofNat (c.toNat - 32) else c

def toUpperStr (s : String) : String := ⟨s.data.map toUpperCh⟩

def hexVal (c : Char) : Option Int :=
  if isDigitCh c then some (Int.ofNat c.toNat - 48)
  else if 'a' ≤ c ∧ c ≤ 'f' then some (Int.ofNat c.toNat - 87)
  else if 'A' ≤ c ∧ c ≤ 'F' then some (Int.ofNat c.toNat - 55)
  else none

/-- `ZeekParser.unescapeSeparator`: a `\xNN` escape denotes the character with
that hex code; anything else is returned unchanged. -/
def unescapeSeparator (sep : String) : String :=
  match sep.data with
  | '\\' :: 'x' :: a :: b :: _ =>
    match hexVal a, hexVal b with
    | some va, some vb => ⟨[Char.ofNat (16 * va.toNat + vb.toNat)]⟩
    | _, _ => sep
  | _ => sep

/-- `strconv.ParseInt(s, 10, 64)` (decimal, optional sign, int64 range). -/
def parseIntGo (s : String) : Option Int :=
  let core : Option (Int × List Char) :=
    match s.data with
    | '+' :: rest => some (1, rest)
    | '-' :: rest => some (-1, rest)
    | rest => some (1, rest)
  match core with
  | none => none
  | some (sg, ds) =>
    if ds = [] ∨ ¬ ds.all isDigitCh then none
    else
      let v := sg * natOfDigits ds
      if v ≤ 9223372036854775807 ∧ -9223372036854775808 ≤ v then some v else none

/-- `ZeekParser.parseTimestamp` (zeek.go lines 238-270): Unix
`seconds.fraction`, fraction padded/truncated to nanoseconds; any failure
yields the zero time. -/
def zeekParseTimestamp (tsStr : String) : Int :=
  if tsStr = "" then goZeroTime
  else
    match goSplit tsStr "." with
    | [] => goZeroTime
    | p0 :: rest =>
      match parseIntGo p0 with
      | none => goZeroTime
      | some seconds =>
        let nanos :=
          match rest with
          | [] => 0
          | micro :: _ =>
            let padded := (micro.data ++ List.replicate (9 - min micro.data.length 9) '0').take 9
            ((parseIntGo ⟨padded⟩).getD 0)
        seconds * 1000000000 + nanos

/-- `ZeekParser.getEventType` (zeek.go lines 273-308). -/
def zeekEventType : String → String
  | "conn" => "ZeekConnection"
  | "dns" => "ZeekDNS"
  | "http" => "ZeekHTTP"
  | "ssl" => "ZeekSSL"
  | "files" => "ZeekFiles"
  | "x509" => "ZeekX509"
  | "dhcp" => "ZeekDHCP"
  | "ssh" => "ZeekSSH"
  | "smtp" => "ZeekSMTP"
  | "ftp" => "ZeekFTP"
  | "notice" => "ZeekNotice"
  | "weird" => "ZeekWeird"
  | "dpd" => "ZeekDPD"
  | "known_hosts" => "ZeekKnownHosts"
  | "known_services" => "ZeekKnownServices"
  | "software" => "ZeekSoftware"
  | "pe" => "ZeekPE"
  | "ntp" => "ZeekNTP"
  | "rdp" => "ZeekRDP"
  | "smb_mapping" => "ZeekSMBMapping"
  | "smb_files" => "ZeekSMBFiles"
  | "dce_rpc" => "ZeekDCERPC"
  | "ntlm" => "ZeekNTLM"
  | "kerberos" => "ZeekKerberos"
  | "sip" => "ZeekSIP"
  | "snmp" => "ZeekSNMP"
  | "tunnel" => "ZeekTunnel"
  | _ => "ZeekLog"

/-- Go map lookup with overwrite semantics: the last binding wins, a missing
key yields the empty string. -/
def lookupGoMap (m : List (String × String)) (k : String) : String :=
  ((m.reverse.find? (fun p => p.1 = k)).map (fun p => p.2)).getD ""

/-- the field-map loop of `ZeekParser.Parse` (zeek.go lines 136-146): pair each
declared field with its value, mapping the empty/unset markers to "". -/
def zeekFieldMap (fields values : List String) (emptyF unsetF : String) :
    List (String × String) :=
  (fields.zip values).map fun p =>
    (p.1, if p.2 = emptyF ∨ p.2 = unsetF then "" else p.2)

/-- the generic arm of `ZeekParser.buildMessage`'s switch for an empty
connection string: up to five `k=v` pairs of non-empty fields other than
`ts`/`uid`.  Go iterates the map in unspecified order; declaration order is
used here (no claim inspects this text). -/
def zeekGenericMsg (fields : List (String × String)) : String :=
  let parts := (fields.filter fun p => ¬ p.2 = "" ∧ ¬ p.1 = "ts" ∧ ¬ p.1 = "uid").take 5
  String.intercalate " " (parts.map fun p => p.1 ++ "=" ++ p.2)

/-- `ZeekParser.buildMessage` (zeek.go lines 311-662).  The `conn` arm and the
default arm are translated in full; the other specialized arms (`dns`, `http`,
...) are abbreviated to the default behavior, as no claim inspects their
message text. -/
def zeekBuildMessage (logPath : String) (fields : List (String × String))
    (origHost origPort respHost respPort : String) : String :=
  let connStr :=
    if ¬ origHost = "" ∧ ¬ respHost = "" then
      origHost ++ ":" ++ origPort ++ " -> " ++ respHost ++ ":" ++ respPort
    else if ¬ origHost = "" then origHost
    else ""
  match logPath with
  | "conn" =>
    let proto := lookupGoMap fields "proto"
    let service := lookupGoMap fields "service"
    let connState := lookupGoMap fields "conn_state"
    let duration := lookupGoMap fields "duration"
    connStr ++
      (if ¬ proto = "" then " [" ++ toUpperStr proto ++ "]" else "") ++
      (if ¬ service = "" then " service=" ++ service else "") ++
      (if ¬ connState = "" then " state=" ++ connState else "") ++
      (if ¬ duration = "" then " duration=" ++ duration ++ "s" else "")
  | _ => if ¬ connStr = "" then connStr else zeekGenericMsg fields

/-- Zeek header state: separator, declared fields, `#path`, empty/unset
markers (zeek.go lines 101-107 defaults). -/
structure ZeekState where
  sep : String
  fields : List String
  logPath : String
  emptyF : String
  unsetF : String
deriving DecidableEq, Repr

def zeekInitState : ZeekState := ⟨"\t", [], "", "(empty)", "-"⟩

/-- `ZeekParser.parseHeaderLine` (zeek.go lines 193-223). -/
def zeekHeaderLine (st : ZeekState) (line : String) : ZeekState :=
  if goHasPre "#separator " line then
    { st with sep := unescapeSeparator ⟨line.data.drop 11⟩ }
  else if goHasPre "#fields" line then
    match goSplit line st.sep with
    | _ :: rest => if rest = [] then st else { st with fields := rest }
    | [] => st
  else if goHasPre "#path" line then
    match goSplit line st.sep with
    | _ :: v :: _ => { st with logPath := v }
    | _ => st
  else if goHasPre "#empty_field" line then
    match goSplit line st.sep with
    | _ :: v :: _ => { st with emptyF := v }
    | _ => st
  else if goHasPre "#unset_field" line then
    match goSplit line st.sep with
    | _ :: v :: _ => { st with unsetF := v }
    | _ => st
  else st

/-- one data line of `ZeekParser.Parse` (zeek.go lines 132-180). -/
def zeekDataLine (st : ZeekState) (source filePath : String) (dataLineNum : Int)
    (line : String) : Event :=
  let values := goSplit line st.sep
  let fieldMap := zeekFieldMap st.fields values st.emptyF st.unsetF
  let timestamp := zeekParseTimestamp (lookupGoMap fieldMap "ts")
  let origHost := lookupGoMap fieldMap "id.orig_h"
  let respHost := lookupGoMap fieldMap "id.resp_h"
  let origPort := lookupGoMap fieldMap "id.orig_p"
  let respPort := lookupGoMap fieldMap "id.resp_p"
  let eventType := zeekEventType st.logPath
  let message := zeekBuildMessage st.logPath fieldMap origHost origPort respHost respPort
  let host := if origHost = "" then lookupGoMap fieldMap "host" else origHost
  newEvent timestamp source eventType dataLineNum "" host message filePath

def zeekParseAux (source filePath : String) :
    ZeekState → Int → List String → List Event
  | _, _, [] => []
  | st, dataLineNum, l :: rest =>
    if isBlankLine l then zeekParseAux source filePath st dataLineNum rest
    else if goHasPre "#" l then
      zeekParseAux source filePath (zeekHeaderLine st l) dataLineNum rest
    else if st.fields = [] then zeekParseAux source filePath st dataLineNum rest
    else
      zeekDataLine st source filePath (dataLineNum + 1) l ::
        zeekParseAux source filePath st (dataLineNum + 1) rest

/-- `ZeekParser.Parse` on the file's lines. -/
def zeekParse (filePath : String) (lines : List String) : List Event :=
  zeekParseAux (filepathBase filePath) filePath zeekInitState 0 lines

/- Section 5: CSV artifact timestamp resolution (unnamed csv_artifacts
source, `parseTimestamp`). -/
def goTrimSpace (s : String) : String :=
  ⟨((s.data.dropWhile isGoSpace).reverse.dropWhile isGoSpace).reverse⟩

/-- `isNumeric` of the CSV parser: nonempty, decimal digits only. -/
def isNumeric (s : String) : Bool := ¬ s.data = [] ∧ s.data.all isDigitCh

/-- two's-complement wrap into `int64`, for products the Go code computes in
`int64` arithmetic. -/
def wrap64 (n : Int) : Int :=
  (n + 9223372036854775808) % 18446744073709551616 - 9223372036854775808

/-- the numeric block of the CSV parser's `parseTimestamp` (lines 362-388),
after `TrimSpace`, for an empty preferred format: magnitude discrimination of
a numeric token.  The nanosecond products — `epoch*int64(time.Microsecond)`,
`epoch*int64(time.Millisecond)`, `(filetime-windowsEpochDiff)*100` — are
computed by the Go code in `int64` and wrap on overflow (`wrap64`); the
seconds branch calls `time.Unix(epoch, 0)`, which stores the seconds in the
`time.Time` directly and forms no nanosecond product.  `none` means the block
falls through (the code then tries the textual format list, which no claim
touches). -/
def csvParseTimestampNum (value0 : String) : Option (Int × String) :=
  let value := goTrimSpace value0
  if ¬ isNumeric value = true then none
  else
    match parseIntGo value with
    | none => none
    | some epoch =>
      if 1000000000000000 < epoch then some (wrap64 (epoch * 1000), "unix_micro")
      else if 1000000000000 < epoch then some (wrap64 (epoch * 1000000), "unix_milli")
      else if 1000000000 < epoch then some (epoch * 1000000000, "unix_sec")
      else if 116444736000000000 < epoch ∧ epoch < 200000000000000000 then
        some (wrap64 ((epoch - 116444736000000000) * 100), "filetime")
      else none

/- Section 6a: the SQLite sink (src/output/sqlite.go), as a state machine over
an abstract database: `committed` are the rows visible after the last commit,
`pending` the rows inserted in the open transaction.  All inserts go through
the single statement prepared in `NewSQLiteWriter` (wrapped per transaction by
`tx.Stmt`); rows are abstracted by the written `Event`. -/
structure SQLiteDB where
  committed : List Event
  pending : List Event
  hasIndex : Bool
  count : Int
deriving Repr

/-- `NewSQLiteWriter`: pragmas, `CREATE TABLE`, no index (deferred to
`Close`), one prepared insert statement, a transaction begun, batch size
10000, count 0. -/
def sqliteOpen : SQLiteDB := ⟨[], [], false, 0⟩

/-- `commitAndStartNewTransaction`. -/
def sqliteCommitAndStartNew (db : SQLiteDB) : SQLiteDB :=
  ⟨db.committed ++ db.pending, [], db.hasIndex, 0⟩

/-- one iteration of the loop in `SQLiteWriter.Write`: exec the insert,
increment `count`, commit and reopen every 10000 rows. -/
def sqliteInsertOne (db : SQLiteDB) (e : Event) : SQLiteDB :=
  let db1 : SQLiteDB := ⟨db.committed, db.pending ++ [e], db.hasIndex, db.count + 1⟩
  if 10000 ≤ db1.count then sqliteCommitAndStartNew db1 else db1

/-- `SQLiteWriter.Write`. -/
def sqliteWrite (db : SQLiteDB) (events : List Event) : SQLiteDB :=
  events.foldl sqliteInsertOne db

/-- `SQLiteWriter.Close`: commit the final transaction, then create
`idx_events_timestamp`. -/
def sqliteClose (db : SQLiteDB) : SQLiteDB :=
  ⟨db.committed ++ db.pending, [], true, db.count⟩

/-- all rows written so far (committed plus open transaction). -/
def SQLiteDB.written (db : SQLiteDB) : List Event := db.committed ++ db.pending

/-- writer invariant: `count` tracks the open transaction and commits happen
exactly at multiples of 10000 rows. -/
def sqliteInv (db : SQLiteDB) : Prop :=
  db.count = db.pending.length ∧ db.pending.length < 10000 ∧
    db.committed.length % 10000 = 0

/- Section 6b: the JSON Lines sink (src/output/jsonl.go).  `Write` marshals
each event with `json.Marshal` — whose HTML escaping is enabled — and appends
a newline. -/
/-- Go `encoding/json` string-byte escaping (ASCII data; with `escapeHTML`
the characters `<`, `>`, `&` become `\u003c`, `\u003e`, `\u0026`). -/
def jsonEscapeChar (escapeHTML : Bool) (c : Char) : List Char :=
  if c = '"' then ['\\', '"']
  else if c = '\\' then ['\\', '\\']
  else if escapeHTML ∧ c = '<' then ['\\', 'u', '0', '0', '3', 'c']
  else if escapeHTML ∧ c = '>' then ['\\', 'u', '0', '0', '3', 'e']
  else if escapeHTML ∧ c = '&' then ['\\', 'u', '0', '0', '2', '6']
  else if c = '\n' then ['\\', 'n']
  else if c = '\r' then ['\\', 'r']
  else if c = '\t' then ['\\', 't']
  else if c.toNat < 32 then
    ['\\', 'u', '0', '0', Char.ofNat (48 + c.toNat / 16),
      (if c.toNat % 16 < 10 then Char.ofNat (48 + c.toNat % 16)
       else Char.ofNat (87 + c.toNat % 16))]
  else [c]

def jsonQuote (escapeHTML : Bool) (s : String) : String :=
  ⟨'"' :: (s.data.flatMap (jsonEscapeChar escapeHTML) ++ ['"'])⟩

def pad2 (n : Int) : String :=
  if n < 10 then "0" ++ intToStr n else intToStr n

def pad4 (n : Int) : String :=
  if n < 10 then "000" ++ intToStr n
  else if n < 100 then "00" ++ intToStr n
  else if n < 1000 then "0" ++ intToStr n
  else intToStr n

/-- trailing-zero-trimmed 9-digit fraction (RFC3339Nano). -/
def fracString (ns : Int) : String :=
  if ns = 0 then ""
  else
    let ds := (decDigitsAux 30 ns.toNat).reverse
    let padded := List.replicate (9 - min ds.length 9) '0' ++ ds
    ⟨'.' :: (padded.reverse.dropWhile (fun c => c = '0')).reverse⟩

/-- `time.Time.MarshalJSON`: quoted RFC3339Nano, `Z` offset for UTC. -/
def formatRFC3339Nano (t : Int) : String :=
  let c := dateOf t
  let clk := clockNsOf t
  let secs := clk / 1000000000
  pad4 c.1 ++ "-" ++ pad2 c.2.1 ++ "-" ++ pad2 c.2.2 ++ "T" ++
    pad2 (secs / 3600) ++ ":" ++ pad2 (secs / 60 % 60) ++ ":" ++ pad2 (secs % 60) ++
    fracString (clk % 1000000000) ++ "Z"

/-- comma-joined list (the encoder's array emission). -/
def joinComma : List String → String
  | [] => ""
  | [s] => s
  | s :: rest => s ++ "," ++ joinComma rest

/-- `json.Marshal` of a `core.Event` (struct field order and the `omitempty`
tags of src/core/event.go; `score` is zero throughout the pipeline). -/
def marshalEvent (escapeHTML : Bool) (e : Event) : String :=
  "\x7b\"timestamp\":" ++ jsonQuote escapeHTML (formatRFC3339Nano e.timestamp) ++
    ",\"source\":" ++ jsonQuote escapeHTML e.source ++
    ",\"event_type\":" ++ jsonQuote escapeHTML e.eventType ++
    ",\"event_id\":" ++ intToStr e.eventId ++
    ",\"user\":" ++ jsonQuote escapeHTML e.user ++
    ",\"host\":" ++ jsonQuote escapeHTML e.host ++
    ",\"message\":" ++ jsonQuote escapeHTML e.message ++
    ",\"path\":" ++ jsonQuote escapeHTML e.path ++
    (if e.tags = [] then ""
     else ",\"tags\":[" ++ joinComma (e.tags.map (jsonQuote escapeHTML)) ++ "]") ++
    (if e.score = 0 then "" else ",\"score\":" ++ intToStr e.score) ++
    (if e.summary = "" then "" else ",\"summary\":" ++ jsonQuote escapeHTML e.summary) ++
    "\x7d"

/-- bytes appended by `JSONLWriter.Write` (src/output/jsonl.go lines 38-70):
per event, `json.Marshal(event)` — HTML escaping enabled — then one newline. -/
def jsonlWriteString : List Event → String
  | [] => ""
  | e :: rest => (marshalEvent true e ++ "\n") ++ jsonlWriteString rest

def countCh (s : String) (c : Char) : Nat := (s.data.filter (fun x => x = c)).length

/- Section 7: parser dispatch (src/parsers/parser.go `GetParserForFile`) and
the directory worker (src/internal/processor/processor.go lines 226-304). -/
inductive ParserKind where
  | evtx | prefetch
  | windowsXMLEvent | scheduledTaskXML | sysmonXML | genericXML
  | cloudTrail | azureActivity | gcpAudit | jsonGeneric
  | browserHistory | shellbags
  | logGeneric
  | psTranscript | psScriptBlock
  | macInstall | macASL | macUnified
  | iis | zeek | webAccess | linuxSyslog | windowsText
  | windowsFirewall | iptables | ciscoASA | csvArtifact
deriving DecidableEq, Repr

inductive GoErr where
  | unsupportedFormat
  | prefetchNotSupported
  | shellbagsNotSupported
  | failedToGetParser (path : String) (inner : GoErr)
  | failedToParse (path : String) (inner : GoErr)
  | failedToWrite (path : String) (inner : GoErr)
  | ioError (msg : String)
deriving DecidableEq, Repr

/-- `LinuxSyslogParser.CanParse` (linux.go lines 29-40). -/
def linuxSyslogCanParse (filePath : String) : Bool :=
  let b := toLowerStr (filepathBase filePath)
  b = "syslog" ∨ b = "auth.log" ∨ b = "kern.log" ∨ b = "messages" ∨ b = "user.log" ∨
    goContains b "syslog." ∨ goContains b "auth.log." ∨ goContains b "kern.log."

/-- `WebAccessParser.CanParse`. -/
def webAccessCanParse (filePath : String) : Bool :=
  let b := toLowerStr (filepathBase filePath)
  b = "access.log" ∨ goHasPre "access.log." b ∨ goContains b "apache" ∨ goContains b "nginx"

/-- `WindowsTextParser.CanParse` (windows.go lines 30-36). -/
def windowsTextCanParse (filePath : String) : Bool :=
  let b := toLowerStr (filepathBase filePath)
  b = "cbs.log" ∨ goContains b "windowsupdate" ∨ goContains b "setupapi" ∨
    goContains b "dism"

/-- `IISParser.CanParse` (iis.go lines 23-43). -/
def iisCanParse (filePath : String) : Bool :=
  let lp := toLowerStr filePath
  let b := toLowerStr (filepathBase filePath)
  (goHasPre "u_ex" b ∧ goHasSuffix ".log" b) ∨
    (goContains lp "inetpub" ∧ goHasSuffix ".log" b) ∨
    (goContains lp "w3svc" ∧ goHasSuffix ".log" b)

/-- `WindowsFirewallParser.CanParse`. -/
def windowsFirewallCanParse (filePath : String) : Bool :=
  let b := toLowerStr (filepathBase filePath)
  b = "pfirewall.log" ∨ (goContains b "firewall" ∧ goHasSuffix ".log" b)

/-- `IptablesParser.CanParse`. -/
def iptablesCanParse (filePath : String) : Bool :=
  let b := toLowerStr (filepathBase filePath)
  b = "ufw.log" ∨ goContains b "iptables" ∨ goContains b "firewall" ∨
    goContains b "netfilter"

/-- `CiscoASAParser.CanParse`. -/
def ciscoASACanParse (filePath : String) : Bool :=
  let b := toLowerStr (filepathBase filePath)
  goContains b "asa" ∨ goContains b "cisco" ∨ goContains b "pix"

/-- `CSVArtifactParser.CanParse`. -/
def csvCanParse (filePath : String) : Bool :=
  toLowerStr (filepathExt filePath) = ".csv"

/-- `BrowserHistoryParser.detectBrowserType` ≠ unknown (stubs.go 121-155). -/
def browserHistoryCanParse (filePath : String) : Bool :=
  let b := toLowerStr (filepathBase filePath)
  let pl := toLowerStr filePath
  (b = "history" ∧ (goContains pl "chrome" ∨ goContains pl "edge" ∨ goContains pl "chromium")) ∨
    (b = "places.sqlite" ∧ (goContains pl "firefox" ∨ goContains pl "mozilla")) ∨
    (b = "history.db" ∧ goContains pl "safari")

/-- classifiers that sniff file content (XML family, cloud JSON content
probes, PowerShell and macOS markers, Zeek headers): abstracted as oracles
over the path — the dispatch logic itself never depends on their verdicts. -/
structure ClassifierOracle where
  windowsXMLEvent : String → Bool
  scheduledTaskXML : String → Bool
  sysmonXML : String → Bool
  cloudTrail : String → Bool
  azureActivity : String → Bool
  gcpAudit : String → Bool
  psTranscript : String → Bool
  psScriptBlock : String → Bool
  macInstall : String → Bool
  macASL : String → Bool
  macUnified : String → Bool
  zeek : String → Bool

/-- `GetParserForFile` (parser.go lines 116-282): priority-ordered dispatch;
every branch returns a parser with a nil error and the generic `LogParser` is
the unconditional terminal fallback. -/
def getParserForFile (o : ClassifierOracle) (filePath : String) :
    Except GoErr ParserKind :=
  let ext := toLowerStr (filepathExt filePath)
  if ext = ".evtx" then Except.ok .evtx
  else if ext = ".pf" then Except.ok .prefetch
  else if ext = ".xml" then
    if o.windowsXMLEvent filePath then Except.ok .windowsXMLEvent
    else if o.scheduledTaskXML filePath then Except.ok .scheduledTaskXML
    else if o.sysmonXML filePath then Except.ok .sysmonXML
    else Except.ok .genericXML
  else if (ext = ".json" ∨ ext = ".jsonl") ∧ o.cloudTrail filePath then
    Except.ok .cloudTrail
  else if (ext = ".json" ∨ ext = ".jsonl") ∧ o.azureActivity filePath then
    Except.ok .azureActivity
  else if (ext = ".json" ∨ ext = ".jsonl") ∧ o.gcpAudit filePath then
    Except.ok .gcpAudit
  else if ext = ".json" then Except.ok .jsonGeneric
  else if browserHistoryCanParse filePath then Except.ok .browserHistory
  else if goContains (toLowerStr (filepathBase filePath)) "shellbag" then
    Except.ok .shellbags
  else if goContains (toLowerStr (filepathBase filePath)) ".log." then
    Except.ok .logGeneric
  else if o.psTranscript filePath then Except.ok .psTranscript
  else if o.psScriptBlock filePath then Except.ok .psScriptBlock
  else if o.macInstall filePath then Except.ok .macInstall
  else if o.macASL filePath then Except.ok .macASL
  else if o.macUnified filePath then Except.ok .macUnified
  else if iisCanParse filePath then Except.ok .iis
  else if o.zeek filePath then Except.ok .zeek
  else if webAccessCanParse filePath then Except.ok .webAccess
  else if linuxSyslogCanParse filePath then Except.ok .linuxSyslog
  else if windowsTextCanParse filePath then Except.ok .windowsText
  else if windowsFirewallCanParse filePath then Except.ok .windowsFirewall
  else if iptablesCanParse filePath then Except.ok .iptables
  else if ciscoASACanParse filePath then Except.ok .ciscoASA
  else if csvCanParse filePath then Except.ok .csvArtifact
  else Except.ok .logGeneric

/-- a parse oracle gives the result of `parser.Parse(path)` for the
implemented parsers; the Prefetch and Shellbags placeholders
(stubs.go lines 89-110) unconditionally return their dedicated errors. -/
def parserParse (po : ParserKind → String → Except GoErr (List Event))
    (k : ParserKind) (path : String) : Except GoErr (List Event) :=
  match k with
  | .prefetch => Except.error .prefetchNotSupported
  | .shellbags => Except.error .shellbagsNotSupported
  | k => po k path

/-- the filter step of the worker (processor.go lines 260-270): with a
compiled regex (abstracted to its `MatchString` predicate), keep an event iff
the regex matches its user, host, message or source. -/
def applyFilter (flt : Option (String → Bool)) (events : List Event) : List Event :=
  match flt with
  | none => events
  | some re =>
    events.filter fun ev => re ev.user ∨ re ev.host ∨ re ev.message ∨ re ev.source

/-- worker-visible state: the atomic counters, the collected error list and
the sink (batches in write order). -/
structure WorkerState where
  filesProcessed : Int
  eventsProcessed : Int
  filesSkipped : Int
  errors : List GoErr
  sink : List (List Event)
deriving DecidableEq, Repr

def workerInit : WorkerState := ⟨0, 0, 0, [], []⟩

/-- the per-file body of the worker goroutine (processor.go lines 240-301):
dispatch, the `ErrUnsupportedFormat` skip branch, parse, filter, sort
(`sort.Sort`, abstracted to the `sortImpl` parameter), write — a failed
`writer.Write` (lines 275-279, outcome abstracted to the `wo` parameter,
`none` meaning success) appends a failed-to-write error and skips the
counters — and the counter updates. -/
def workerProcessFile (o : ClassifierOracle)
    (po : ParserKind → String → Except GoErr (List Event))
    (flt : Option (String → Bool)) (sortImpl : List Event → List Event)
    (wo : List Event → Option GoErr)
    (st : WorkerState) (filePath : String) : WorkerState :=
  match getParserForFile o filePath with
  | Except.error e =>
    if e = GoErr.unsupportedFormat then
      { st with filesSkipped := st.filesSkipped + 1 }
    else { st with errors := st.errors ++ [GoErr.failedToGetParser filePath e] }
  | Except.ok parser =>
    match parserParse po parser filePath with
    | Except.error e =>
      { st with errors := st.errors ++ [GoErr.failedToParse filePath e] }
    | Except.ok events =>
      match wo (sortImpl (applyFilter flt events)) with
      | some werr =>
        { st with errors := st.errors ++ [GoErr.failedToWrite filePath werr] }
      | none =>
        { st with
            sink := st.sink ++ [sortImpl (applyFilter flt events)]
            filesProcessed := st.filesProcessed + 1
            eventsProcessed := st.eventsProcessed +
              (sortImpl (applyFilter flt events)).length }

/-- a directory run over the walked paths, and the value
`processDirectoryWithContext` returns: the aggregated error list when
non-empty (processor.go lines 360-364). -/
def processDirectoryGo (o : ClassifierOracle)
    (po : ParserKind → String → Except GoErr (List Event))
    (flt : Option (String → Bool)) (sortImpl : List Event → List Event)
    (wo : List Event → Option GoErr)
    (paths : List String) : WorkerState × Option (List GoErr) :=
  let final := paths.foldl (workerProcessFile o po flt sortImpl wo) workerInit
  (final, if final.errors = [] then none else some final.errors)

/-- the contract of Go `sort.Sort` on `core.Events` (event.go lines 50-55):
the output is a permutation of the input, pairwise non-decreasing in the
`Less` order (`Timestamp.Before`); stability is NOT guaranteed. -/
def goSortSpec (input output : List Event) : Prop :=
  output.Perm input ∧ output.Pairwise (fun a b => a.timestamp ≤ b.timestamp)

/-- tie preservation: for every instant, the equal-timestamp events appear in
their original (insertion) order. -/
def stableTies (input output : List Event) : Prop :=
  ∀ t : Int, output.filter (fun e => e.timestamp = t) =
    input.filter (fun e => e.timestamp = t)

/-- an oracle whose content classifiers all decline (the concrete dispatch
claims below do not depend on classifier verdicts). -/
def oracleNone : ClassifierOracle :=
  ⟨fun _ => false, fun _ => false, fun _ => false, fun _ => false, fun _ => false,
   fun _ => false, fun _ => false, fun _ => false, fun _ => false, fun _ => false,
   fun _ => false, fun _ => false⟩

/-- the parser kind the dispatch tree selects; helper for stating that
`getParserForFile` is total (it never returns an error). -/
def parserKindFor (o : ClassifierOracle) (filePath : String) : ParserKind :=
  let ext := toLowerStr (filepathExt filePath)
  if ext = ".evtx" then .evtx
  else if ext = ".pf" then .prefetch
  else if ext = ".xml" then
    if o.windowsXMLEvent filePath then .windowsXMLEvent
    else if o.scheduledTaskXML filePath then .scheduledTaskXML
    else if o.sysmonXML filePath then .sysmonXML
    else .genericXML
  else if (ext = ".json" ∨ ext = ".jsonl") ∧ o.cloudTrail filePath then .cloudTrail
  else if (ext = ".json" ∨ ext = ".jsonl") ∧ o.azureActivity filePath then .azureActivity
  else if (ext = ".json" ∨ ext = ".jsonl") ∧ o.gcpAudit filePath then .gcpAudit
  else if ext = ".json" then .jsonGeneric
  else if browserHistoryCanParse filePath then .browserHistory
  else if goContains (toLowerStr (filepathBase filePath)) "shellbag" then .shellbags
  else if goContains (toLowerStr (filepathBase filePath)) ".log." then .logGeneric
  else if o.psTranscript filePath then .psTranscript
  else if o.psScriptBlock filePath then .psScriptBlock
  else if o.macInstall filePath then .macInstall
  else if o.macASL filePath then .macASL
  else if o.macUnified filePath then .macUnified
  else if iisCanParse filePath then .iis
  else if o.zeek filePath then .zeek
  else if webAccessCanParse filePath then .webAccess
  else if linuxSyslogCanParse filePath then .linuxSyslog
  else if windowsTextCanParse filePath then .windowsText
  else if windowsFirewallCanParse filePath then .windowsFirewall
  else if iptablesCanParse filePath then .iptables
  else if ciscoASACanParse filePath then .ciscoASA
  else if csvCanParse filePath then .csvArtifact
  else .logGeneric

/-- the `Less` order of `core.Events` as a binary relation. -/
def evLe (a b : Event) : Prop := a.timestamp ≤ b.timestamp

instance : DecidableRel evLe := fun a b => Int.decLe a.timestamp b.timestamp

instance : IsTotal Event evLe := ⟨fun a b => Int.le_total a.timestamp b.timestamp⟩

instance : IsTrans Event evLe := ⟨fun _ _ _ => Int.le_trans⟩

/-- a sorting routine satisfying the `sort.Sort` contract, for instantiating
the abstracted per-file sort. -/
def insertionSortByTs (l : List Event) : List Event := l.insertionSort evLe

/-- two events with equal timestamps, in parse order. -/
def evTieA : Event := newEvent 100 "app.log" "LogEntry" 1 "" "" "first" "/l/app.log"

def evTieB : Event := newEvent 100 "app.log" "LogEntry" 2 "" "" "second" "/l/app.log"

/-- the number of non-blank lines of a file. -/
def countNonBlank (lines : List String) : Nat :=
  (lines.filter (fun l => ¬ isBlankLine l)).length

/-- the records of a Zeek file the parser turns into events, counted against
the running header state: non-blank, non-`#` lines seen while a `#fields`
directive is in force. -/
def zeekDataCount : ZeekState → List String → Nat
  | _, [] => 0
  | st, l :: rest =>
    if isBlankLine l then zeekDataCount st rest
    else if goHasPre "#" l then zeekDataCount (zeekHeaderLine st l) rest
    else if st.fields = [] then zeekDataCount st rest
    else 1 + zeekDataCount st rest

/-- a character the JSONL output must never contain raw: the three
HTML-escaped characters and the record separator. -/
def jsonSafeCh (c : Char) : Bool :=
  ¬ c = '<' ∧ ¬ c = '>' ∧ ¬ c = '&' ∧ ¬ c = '\n'

/-- every character of the string satisfies `p`. -/
def strOk (p : Char → Bool) (s : String) : Bool := s.data.all p

/-- an event whose message holds a raw angle bracket. -/
def evAngle : Event := newEvent 0 "app.log" "LogEntry" 1 "" "" "a<b" "/l/app.log"

theorem db0 : daysBefore 0 = 0 := by norm_num [daysBefore]

theorem db1 : daysBefore 1 = 31 := by norm_num [daysBefore]

theorem db2 : daysBefore 2 = 59 := by norm_num [daysBefore]

theorem db3 : daysBefore 3 = 90 := by norm_num [daysBefore]

theorem db4 : daysBefore 4 = 120 := by norm_num [daysBefore]

theorem db5 : daysBefore 5 = 151 := by norm_num [daysBefore]

theorem db6 : daysBefore 6 = 181 := by norm_num [daysBefore]

theorem db7 : daysBefore 7 = 212 := by norm_num [daysBefore]

theorem db8 : daysBefore 8 = 243 := by norm_num [daysBefore]

theorem db9 : daysBefore 9 = 273 := by norm_num [daysBefore]

theorem db10 : daysBefore 10 = 304 := by norm_num [daysBefore]

theorem db11 : daysBefore 11 = 334 := by norm_num [daysBefore]

theorem db12 : daysBefore 12 = 365 := by norm_num [daysBefore]

theorem cent100_bounds (d1 : Int) :
    0 ≤ cent100 d1 ∧ cent100 d1 ≤ 3 ∧ 0 ≤ rem100 d1 ∧ rem100 d1 ≤ 36524 ∧
      (rem100 d1 = 36524 → cent100 d1 = 3) := by
  simp only [rem100, cent100, rem400]
  omega

theorem quad4_bounds (d1 : Int) :
    0 ≤ quad4 d1 ∧ quad4 d1 ≤ 24 ∧ 0 ≤ rem4 d1 ∧ rem4 d1 ≤ 1460 ∧
      (rem4 d1 = 1460 → quad4 d1 = 24 → rem100 d1 = 36524) := by
  have h := cent100_bounds d1
  simp only [rem4, quad4]
  omega

theorem yr1_bounds (d1 : Int) :
    0 ≤ yr1 d1 ∧ yr1 d1 ≤ 3 ∧ 0 ≤ ydayOf d1 ∧ ydayOf d1 ≤ 365 ∧
      (ydayOf d1 = 365 → yr1 d1 = 3 ∧ rem4 d1 = 1460) := by
  have h := quad4_bounds d1
  simp only [ydayOf, yr1]
  omega

theorem yday365_leap (d1 : Int) :
    ydayOf d1 = 365 → isLeap (absYear d1) = true := by
  intro h
  have h1 := yr1_bounds d1
  have h2 := quad4_bounds d1
  have h3 := cent100_bounds d1
  simp only [absYear, isLeap]
  rw [decide_eq_true_iff]
  omega

theorem daysSinceEpochY_recompose (d1 : Int) :
    daysSinceEpochY (absYear d1) =
      146097 * era400 d1 + 36524 * cent100 d1 + 1461 * quad4 d1 + 365 * yr1 d1 := by
  have h1 := yr1_bounds d1
  have h2 := quad4_bounds d1
  have h3 := cent100_bounds d1
  simp only [daysSinceEpochY, absYear]
  omega

theorem abs_decompose (d1 : Int) :
    d1 = 146097 * era400 d1 + 36524 * cent100 d1 + 1461 * quad4 d1 + 365 * yr1 d1 +
      ydayOf d1 := by
  simp only [ydayOf, yr1, rem4, quad4, rem100, cent100, rem400, era400]
  omega

set_option maxHeartbeats 1000000 in
theorem extractMD0_correct (day : Int) (h0 : 0 ≤ day) (h1 : day ≤ 364) :
    1 ≤ (extractMD0 day).1 ∧ (extractMD0 day).1 ≤ 12 ∧
      1 ≤ (extractMD0 day).2 ∧ (extractMD0 day).2 ≤ 31 ∧
      daysBefore ((extractMD0 day).1 - 1) + ((extractMD0 day).2 - 1) = day ∧
      (59 ≤ day → 3 ≤ (extractMD0 day).1) ∧ (day < 59 → (extractMD0 day).1 ≤ 2) := by
  have h12 : day / 31 = 0 ∨ day / 31 = 1 ∨ day / 31 = 2 ∨ day / 31 = 3 ∨ day / 31 = 4 ∨
      day / 31 = 5 ∨ day / 31 = 6 ∨ day / 31 = 7 ∨ day / 31 = 8 ∨ day / 31 = 9 ∨
      day / 31 = 10 ∨ day / 31 = 11 := by omega
  have hb : 31 * (day / 31) ≤ day ∧ day < 31 * (day / 31) + 31 := by omega
  rcases h12 with h | h | h | h | h | h | h | h | h | h | h | h <;>
    · simp only [extractMD0]
      rw [h]
      norm_num [db0, db1, db2, db3, db4, db5, db6, db7, db8, db9, db10, db11, db12]
      split_ifs <;>
        norm_num [db0, db1, db2, db3, db4, db5, db6, db7, db8, db9, db10, db11, db12] <;>
        omega

set_option maxHeartbeats 1000000 in
theorem extractMD_correct (leap : Bool) (yday : Int) (h0 : 0 ≤ yday) (h1 : yday ≤ 365)
    (h2 : leap = false → yday ≤ 364) :
    1 ≤ (extractMD leap yday).1 ∧ (extractMD leap yday).1 ≤ 12 ∧
      1 ≤ (extractMD leap yday).2 ∧ (extractMD leap yday).2 ≤ 31 ∧
      daysBefore ((extractMD leap yday).1 - 1) +
        (if leap ∧ 3 ≤ (extractMD leap yday).1 then 1 else 0) +
        ((extractMD leap yday).2 - 1) = yday := by
  rcases leap with _ | _
  · have h3 := h2 rfl
    have h4 := extractMD0_correct yday h0 h3
    simp only [extractMD, Bool.false_eq_true, false_and, if_false]
    omega
  · by_cases h59 : yday = 59
    · subst h59
      decide
    · simp only [extractMD]
      rw [if_neg (by simp [h59])]
      by_cases hgt : 59 < yday
      · rw [if_pos (by simp [hgt])]
        have h4 := extractMD0_correct (yday - 1) (by omega) (by omega)
        have hm3 : 3 ≤ (extractMD0 (yday - 1)).1 := h4.2.2.2.2.2.1 (by omega)
        rw [if_pos (by simp only [true_and]; omega)]
        omega
      · rw [if_neg (by simp [hgt])]
        have h4 := extractMD0_correct yday (by omega) (by omega)
        have hm2 : (extractMD0 yday).1 ≤ 2 := h4.2.2.2.2.2.2 (by omega)
        rw [if_neg (by simp only [true_and]; omega)]
        omega

theorem dateToAbsDays_valid (y m d : Int) (hm1 : 1 ≤ m) (hm2 : m ≤ 12) :
    dateToAbsDays y m d =
      daysSinceEpochY y + daysBefore (m - 1) +
        (if isLeap y ∧ 3 ≤ m then 1 else 0) + (d - 1) := by
  simp only [dateToAbsDays]
  rw [show y + (m - 1) / 12 = y by omega, show (m - 1) % 12 + 1 = m by omega]

theorem absDate_spec (d1 : Int) :
    1 ≤ (absDate d1).2.1 ∧ (absDate d1).2.1 ≤ 12 ∧
      1 ≤ (absDate d1).2.2 ∧ (absDate d1).2.2 ≤ 31 ∧
      dateToAbsDays (absDate d1).1 (absDate d1).2.1 (absDate d1).2.2 = d1 := by
  have hy := yr1_bounds d1
  have hleap365 := yday365_leap d1
  have hrec := daysSinceEpochY_recompose d1
  have hdec := abs_decompose d1
  have hnl : isLeap (absYear d1) = false → ydayOf d1 ≤ 364 := by
    intro hf
    by_contra hcon
    have h365 : ydayOf d1 = 365 := by omega
    rw [hleap365 h365] at hf
    cases hf
  have hex := extractMD_correct (isLeap (absYear d1)) (ydayOf d1) hy.2.2.1 hy.2.2.2.1 hnl
  simp only [absDate]
  refine ⟨hex.1, hex.2.1, hex.2.2.1, hex.2.2.2.1, ?_⟩
  rw [dateToAbsDays_valid _ _ _ hex.1 hex.2.1]
  have hx := hex.2.2.2.2
  by_cases hL : isLeap (absYear d1) = true
  · simp only [hL, true_and] at hx ⊢
    omega
  · simp only [Bool.not_eq_true] at hL
    simp only [hL, Bool.false_eq_true, false_and, if_false] at hx ⊢
    omega

theorem daysSinceEpochY_step (y : Int) :
    365 ≤ daysSinceEpochY (y + 1) - daysSinceEpochY y ∧
      daysSinceEpochY (y + 1) - daysSinceEpochY y ≤ 366 := by
  simp only [daysSinceEpochY]
  omega

theorem clockNsOf_bounds (t : Int) : 0 ≤ clockNsOf t ∧ clockNsOf t < 86400000000000 := by
  simp only [clockNsOf, nsPerDay]
  omega

theorem ite_one_zero_bounds (P : Prop) [Decidable P] :
    0 ≤ (if P then (1 : Int) else 0) ∧ (if P then (1 : Int) else 0) ≤ 1 := by
  split <;> norm_num

/-- If a timestamp falls in November or December and the wall clock is in January
or February of the same calendar year, then the timestamp moved back one year is
no later than the wall clock moved forward six months. -/
theorem novdec_sub_year_le_janfeb_add_6m (t0 now : Int)
    (hm : 11 ≤ monthOf t0) (hn : monthOf now ≤ 2) (hy : yearOf t0 = yearOf now) :
    addDate t0 (-1) 0 0 ≤ addDate now 0 6 0 := by
  have sA := absDate_spec (daysOfTime t0)
  have sB := absDate_spec (daysOfTime now)
  simp only [monthOf, yearOf, dateOf] at hm hn hy
  simp only [addDate, dateOf, goDate, ofDaysClock]
  have hcl0 := clockNsOf_bounds t0
  have hcln := clockNsOf_bounds now
  set A := absDate (daysOfTime t0) with hA
  set B := absDate (daysOfTime now) with hB
  have hmt : A.2.1 = 11 ∨ A.2.1 = 12 := by omega
  have hmn : B.2.1 = 1 ∨ B.2.1 = 2 := by omega
  have hL : dateToAbsDays (A.1 + -1) (A.2.1 + 0) (A.2.2 + 0) ≤
      daysSinceEpochY (A.1 - 1) + 365 := by
    rw [show A.1 + -1 = A.1 - 1 by ring, show A.2.1 + 0 = A.2.1 by ring,
      show A.2.2 + 0 = A.2.2 by ring]
    rw [dateToAbsDays_valid _ _ _ (by omega) (by omega)]
    have hi := ite_one_zero_bounds (isLeap (A.1 - 1) = true ∧ 3 ≤ A.2.1)
    rcases hmt with h | h <;> rw [h] <;> norm_num [db10, db11] <;> omega
  have hR : daysSinceEpochY B.1 + 181 ≤
      dateToAbsDays (B.1 + 0) (B.2.1 + 6) (B.2.2 + 0) := by
    rw [show B.1 + 0 = B.1 by ring, show B.2.2 + 0 = B.2.2 by ring]
    rw [dateToAbsDays_valid _ _ _ (by omega) (by omega)]
    have hi := ite_one_zero_bounds (isLeap B.1 = true ∧ 3 ≤ B.2.1 + 6)
    rcases hmn with h | h <;> rw [h] <;> norm_num [db6, db7] <;> omega
  have hstep := daysSinceEpochY_step (A.1 - 1)
  rw [show A.1 - 1 + 1 = A.1 by ring] at hstep
  have hk : daysSinceEpochY A.1 = daysSinceEpochY B.1 := by rw [hy]
  have hdays : dateToAbsDays (A.1 + -1) (A.2.1 + 0) (A.2.2 + 0) + 1 ≤
      dateToAbsDays (B.1 + 0) (B.2.1 + 6) (B.2.2 + 0) := by omega
  simp only [nsPerDay, unixEpochDays]
  omega

/-- C3 counterexample: the claim's distance rule is the plain mathematical
one.  With `lastTimestamp` in the far future (2500-01-01), `t+1y - last`
overflows Go's int64 `Duration` in `Time.Sub` and saturates, so
`timeDiff(t+1y)` = `timeDiff(t)` = `maxDuration` and the code keeps `t`,
while the claimed mathematical comparison (`|t+1y - last| < |t - last|`)
would pick `t+1y`. -/
theorem c3_plain_distance_counterexample :
    rfc3164YearAdjust (goDate 2025 7 15 43200000000000) (goDate 2025 6 1 43200000000000)
        (goDate 2500 1 1 0) =
      goDate 2025 6 1 43200000000000 ∧
    specYearRules (goDate 2025 7 15 43200000000000) (goDate 2025 6 1 43200000000000)
        (goDate 2500 1 1 0) =
      addDate (goDate 2025 6 1 43200000000000) 1 0 0 ∧
    ¬ goDate 2025 6 1 43200000000000 = addDate (goDate 2025 6 1 43200000000000) 1 0 0 := by
  decide

/-- C3 (amended): the spec's year reconstruction — November/December seen in
January/February goes to the previous year; a timestamp more than six months
in the future goes back one year; and against a live `lastTimestamp` more than
30 days ahead, the year is bumped if that brings the timestamp closer to
`lastTimestamp`, with distance measured as the code measures it: by Go
`Duration` values, which saturate at ±2^63-1 ns — computes exactly
`adjustYear` as coded (sequential-rule reading = code's else-if, valid because
rule 1 rules out rule 2: for a Nov/Dec timestamp moved back a year it can
never be more than six months ahead of a Jan/Feb `now` of the same seed
year — the seed year hypothesis holds for every parse, since the RFC3164
pattern carries no year and the parser seeds `time.Now().Year()`). -/
theorem c3_year_rules_with_saturating_distance (now t0 last : Int)
    (hseed : yearOf t0 = yearOf now) :
    specYearRulesSat now t0 last = rfc3164YearAdjust now t0 last := by
  simp only [specYearRulesSat, rfc3164YearAdjust]
  by_cases h1 : monthOf now ≤ 2 ∧ 11 ≤ monthOf t0
  · rw [if_pos h1, if_pos h1]
    have hle := novdec_sub_year_le_janfeb_add_6m t0 now h1.2 h1.1 hseed
    rw [if_neg (show ¬ addDate now 0 6 0 < addDate t0 (-1) 0 0 by omega)]
  · rw [if_neg h1, if_neg h1]

/-- C3 witness: the amended equivalence at a concrete seed (Nov/Dec timestamp
observed in January, no streaming state). -/
theorem c3_year_rules_with_saturating_distance_witness :
    specYearRulesSat (goDate 2025 1 10 0) (goDate 2025 12 25 0) goZeroTime =
      rfc3164YearAdjust (goDate 2025 1 10 0) (goDate 2025 12 25 0) goZeroTime :=
  c3_year_rules_with_saturating_distance _ _ _ (by decide)

example :
    linuxSyslogParse (goDate 2024 5 10 0) "/var/log/syslog"
        ["2023-01-01T12:00:00Z myhost myapp[123]: Test message"] =
      [newEvent (goDate 2023 1 1 43200000000000) "syslog" "Syslog" 1 "" "myhost"
        "[myapp[123]] Test message" "/var/log/syslog"] := by decide

example :
    linuxSyslogParse (goDate 2024 5 10 0) "/var/log/auth.log"
        ["Jan 01 12:00:00 oldhost sshd[456]: Failed password"] =
      [newEvent (goDate 2024 1 1 43200000000000) "auth.log" "Syslog" 1 "" "oldhost"
        "[sshd[456]] Failed password" "/var/log/auth.log"] := by decide

example :
    webAccessParse "/l/access.log"
        ["127.0.0.1 - jdoe [21/Apr/2023:15:30:45 +0000] \"GET /index.html HTTP/1.1\" 200 1234 \"http://ref/\" \"UA/1.0\""] =
      [newEvent (goDate 2023 4 21 ((15 * 3600 + 30 * 60 + 45) * 1000000000)) "access.log"
        "WebAccess" 1 "jdoe" "127.0.0.1" "GET /index.html (Status: 200)" "/l/access.log"] := by
  decide

example :
    windowsTextParse (goDate 2024 5 10 0) "/w/cbs.log"
        ["2023-04-21 15:30:45, Info                  Cbs    Starting TrustedInstaller..."] =
      [newEvent (goDate 2023 4 21 ((15 * 3600 + 30 * 60 + 45) * 1000000000)) "cbs.log"
        "WindowsLog" 1 "" "" "[Info] Cbs    Starting TrustedInstaller..." "/w/cbs.log"] := by
  decide

theorem sqliteInsertOne_written (db : SQLiteDB) (e : Event) :
    (sqliteInsertOne db e).written = db.written ++ [e] ∧
    (sqliteInsertOne db e).hasIndex = db.hasIndex := by
  simp only [sqliteInsertOne, sqliteCommitAndStartNew, SQLiteDB.written]
  split <;> simp

theorem sqliteInsertOne_inv (db : SQLiteDB) (e : Event) (h : sqliteInv db) :
    sqliteInv (sqliteInsertOne db e) := by
  obtain ⟨h1, h2, h3⟩ := h
  simp only [sqliteInsertOne, sqliteCommitAndStartNew, sqliteInv]
  split
  · simp only [List.length_nil, List.length_append, List.length_cons]
    omega
  · simp only [List.length_nil, List.length_append, List.length_cons]
    omega

theorem sqliteWrite_written (db : SQLiteDB) (events : List Event) :
    (sqliteWrite db events).written = db.written ++ events ∧
    (sqliteWrite db events).hasIndex = db.hasIndex ∧
    (sqliteInv db → sqliteInv (sqliteWrite db events)) := by
  induction events generalizing db with
  | nil => simp [sqliteWrite]
  | cons e rest ih =>
    have h1 := sqliteInsertOne_written db e
    have h2 := sqliteInsertOne_inv db e
    have h3 := ih (sqliteInsertOne db e)
    simp only [sqliteWrite, List.foldl_cons] at *
    refine ⟨by rw [h3.1, h1.1]; simp, by rw [h3.2.1, h1.2], fun hv => h3.2.2 (h2 hv)⟩

/-- C1: the claim requires every line-based parser's per-line fallback to
carry the epoch-zero sentinel and never a wall-clock timestamp.  The parsers
do emit a single `<type>Raw` event with the original line verbatim and never
abort, but `LinuxSyslogParser` and `WindowsTextParser` stamp the fallback with
`time.Now().UTC()` (linux.go line 152, windows.go line 105); only
`WebAccessParser` uses the zero value.  This theorem evaluates the failing
input: a non-blank line matching no pattern, at wall clock
2025-06-01T00:00:00Z. -/
theorem c1_raw_fallback_uses_wall_clock :
    linuxSyslogParse (goDate 2025 6 1 0) "/var/log/syslog" ["hello world"] =
      [newEvent (goDate 2025 6 1 0) "syslog" "SyslogRaw" 1 "" "" "hello world"
        "/var/log/syslog"] ∧
    ¬ goDate 2025 6 1 0 = goZeroTime ∧
    windowsTextParse (goDate 2025 6 1 0) "/w/cbs.log" ["hello world"] =
      [newEvent (goDate 2025 6 1 0) "cbs.log" "WindowsLogRaw" 1 "" "" "hello world"
        "/w/cbs.log"] ∧
    webAccessParse "/l/access.log" ["hello world"] =
      [newEvent goZeroTime "access.log" "WebAccessRaw" 1 "" "" "hello world"
        "/l/access.log"] := by
  decide

/-- C4: numeric magnitude discrimination in the CSV parser's `parseTimestamp`.
1.6e9 / 1.6e12 / 1.6e15 resolve as seconds / milliseconds / microseconds as
claimed, but a value in [1.16e17, 2e17) — here 1.6e17 — is captured by the
`epoch > 1e15` microseconds branch first (every value above 1.16e17 is also
above 1e15, so the FILETIME branch, its own comment notwithstanding, is
unreachable), and the branch's `int64` product `epoch*1000` overflows and
wraps to −6020696663385964544 ns — an instant in 1779 — instead of the
claimed FILETIME conversion `(epoch − 116444736000000000)*100`. -/
theorem c4_numeric_magnitude_discrimination :
    csvParseTimestampNum "1600000000" = some (1600000000 * 1000000000, "unix_sec") ∧
    csvParseTimestampNum "1600000000000" = some (1600000000000 * 1000000, "unix_milli") ∧
    csvParseTimestampNum "1600000000000000" = some (1600000000000000 * 1000, "unix_micro") ∧
    csvParseTimestampNum "160000000000000000" =
      some (-6020696663385964544, "unix_micro") ∧
    ¬ csvParseTimestampNum "160000000000000000" =
      some ((160000000000000000 - 116444736000000000) * 100, "filetime") := by
  decide

/-- C9 counterexample: parsing exactly the claimed input — `#separator \x09`,
the `#fields` directive and the single record, with no `#path` line — yields
one event whose `event_type` is `ZeekLog` (not `ZeekConnection`), whose
message is the bare connection string, and whose timestamp is
2023-04-21T14:30:45.123456Z; the instant claimed, 15:50:45.123456Z, is not the
value of Unix 1682087445.123456 at all. -/
theorem c9_conn_scenario_counterexample :
    zeekParse "/z/conn.log"
        ["#separator \\x09",
         "#fields\tts\tproto\tid.orig_h\tid.orig_p\tid.resp_h\tid.resp_p\tservice\tconn_state",
         "1682087445.123456\ttcp\t10.0.0.1\t1234\t10.0.0.2\t443\tssl\tSF"] =
      [newEvent (goDate 2023 4 21 ((14 * 3600 + 30 * 60 + 45) * 1000000000 + 123456000))
        "conn.log" "ZeekLog" 1 "" "10.0.0.1" "10.0.0.1:1234 -> 10.0.0.2:443" "/z/conn.log"] ∧
    ¬ (goDate 2023 4 21 ((14 * 3600 + 30 * 60 + 45) * 1000000000 + 123456000)) =
      (goDate 2023 4 21 ((15 * 3600 + 50 * 60 + 45) * 1000000000 + 123456000)) := by
  decide

/-- C9 (amended): with the record's `#path\tconn` directive included — as in
any real `conn.log` — the parse yields exactly one event with event_type
`ZeekConnection`, host `10.0.0.1`, timestamp 2023-04-21T14:30:45.123456Z
(= Unix 1682087445.123456), and a message containing
`10.0.0.1:1234 -> 10.0.0.2:443 [TCP] service=ssl state=SF`. -/
theorem c9_conn_scenario_amended :
    zeekParse "/z/conn.log"
        ["#separator \\x09",
         "#fields\tts\tproto\tid.orig_h\tid.orig_p\tid.resp_h\tid.resp_p\tservice\tconn_state",
         "#path\tconn",
         "1682087445.123456\ttcp\t10.0.0.1\t1234\t10.0.0.2\t443\tssl\tSF"] =
      [newEvent (goDate 2023 4 21 ((14 * 3600 + 30 * 60 + 45) * 1000000000 + 123456000))
        "conn.log" "ZeekConnection" 1 "" "10.0.0.1"
        "10.0.0.1:1234 -> 10.0.0.2:443 [TCP] service=ssl state=SF" "/z/conn.log"] ∧
    goContains "10.0.0.1:1234 -> 10.0.0.2:443 [TCP] service=ssl state=SF"
      "10.0.0.1:1234 -> 10.0.0.2:443 [TCP] service=ssl state=SF" = true := by
  decide

/-- C5 counterexample: for a `.pf` file, `GetParserForFile` succeeds with the
Prefetch placeholder, whose `Parse` error is wrapped and added to the
collected error list and surfaces in the directory run's returned aggregate;
the skipped counter stays 0.  The claim asserts the opposite (skip counter
incremented, error neither collected nor returned). -/
theorem c5_prefetch_error_collected_counterexample :
    (workerProcessFile oracleNone (fun _ _ => Except.ok []) none (fun l => l)
        (fun _ => none) workerInit "/evidence/app.pf").filesSkipped = 0 ∧
    (workerProcessFile oracleNone (fun _ _ => Except.ok []) none (fun l => l)
        (fun _ => none) workerInit "/evidence/app.pf").errors =
      [GoErr.failedToParse "/evidence/app.pf" GoErr.prefetchNotSupported] ∧
    (processDirectoryGo oracleNone (fun _ _ => Except.ok []) none (fun l => l)
        (fun _ => none) ["/evidence/app.pf"]).2 =
      some [GoErr.failedToParse "/evidence/app.pf" GoErr.prefetchNotSupported] := by
  decide

/-- C5 (amended): a Prefetch (`.pf`) file is dispatched to the placeholder
parser, whose dedicated `not yet implemented` error is wrapped and appended to
the thread-safe error list (and hence returned in the aggregate when
processing ends); the skipped counter is not touched — the
`ErrUnsupportedFormat` skip branch is dead because `GetParserForFile` never
returns an error. -/
theorem c5_prefetch_parse_error_is_collected (o : ClassifierOracle)
    (po : ParserKind → String → Except GoErr (List Event))
    (flt : Option (String → Bool)) (srt : List Event → List Event)
    (wo : List Event → Option GoErr)
    (st : WorkerState) (path : String)
    (h : toLowerStr (filepathExt path) = ".pf") :
    workerProcessFile o po flt srt wo st path =
      { st with errors := st.errors ++ [GoErr.failedToParse path
          GoErr.prefetchNotSupported] } := by
  have hp : getParserForFile o path = Except.ok ParserKind.prefetch := by
    simp only [getParserForFile, h]
    simp
  simp only [workerProcessFile, hp, parserParse]

/-- C5 witness. -/
theorem c5_prefetch_parse_error_is_collected_witness :
    workerProcessFile oracleNone (fun _ _ => Except.ok []) none (fun l => l)
        (fun _ => none) workerInit "/evidence/sample.pf" =
      { workerInit with errors := [GoErr.failedToParse "/evidence/sample.pf"
          GoErr.prefetchNotSupported] } :=
  c5_prefetch_parse_error_is_collected oracleNone (fun _ _ => Except.ok []) none
    (fun l => l) (fun _ => none) workerInit "/evidence/sample.pf" (by decide)

/-- dispatch never fails: every branch of `GetParserForFile` returns a
parser with a nil error. -/
theorem getParserForFile_ok (o : ClassifierOracle) (path : String) :
    getParserForFile o path = Except.ok (parserKindFor o path) := by
  simp only [getParserForFile, parserKindFor,
    apply_ite (fun k : ParserKind => (Except.ok k : Except GoErr ParserKind))]

/-- every run of the worker body has one of four shapes: skip/collect on a
dispatch error, collect on a parse error, collect on a sink write error, or
filter-sort-write-count on success. -/
theorem workerProcessFile_shape (o : ClassifierOracle)
    (po : ParserKind → String → Except GoErr (List Event))
    (flt : Option (String → Bool)) (srt : List Event → List Event)
    (wo : List Event → Option GoErr)
    (st : WorkerState) (path : String) :
    (∃ p e, getParserForFile o path = Except.error e ∧
      workerProcessFile o po flt srt wo st path = p ∧
      (p = { st with filesSkipped := st.filesSkipped + 1 } ∨
       p = { st with errors := st.errors ++ [GoErr.failedToGetParser path e] })) ∨
    (∃ k err, getParserForFile o path = Except.ok k ∧
      workerProcessFile o po flt srt wo st path =
        { st with errors := st.errors ++ [GoErr.failedToParse path err] } ∧
      parserParse po k path = Except.error err) ∨
    (∃ k evs werr, getParserForFile o path = Except.ok k ∧
      parserParse po k path = Except.ok evs ∧
      wo (srt (applyFilter flt evs)) = some werr ∧
      workerProcessFile o po flt srt wo st path =
        { st with errors := st.errors ++ [GoErr.failedToWrite path werr] }) ∨
    (∃ k evs, getParserForFile o path = Except.ok k ∧
      parserParse po k path = Except.ok evs ∧
      wo (srt (applyFilter flt evs)) = none ∧
      workerProcessFile o po flt srt wo st path =
        { st with
            sink := st.sink ++ [srt (applyFilter flt evs)]
            filesProcessed := st.filesProcessed + 1
            eventsProcessed := st.eventsProcessed +
              (srt (applyFilter flt evs)).length }) := by
  unfold workerProcessFile
  split
  · next e heq =>
    refine Or.inl ⟨_, e, heq, rfl, ?_⟩
    split
    · exact Or.inl rfl
    · exact Or.inr rfl
  · next k heq =>
    split
    · next err heq2 => exact Or.inr (Or.inl ⟨k, err, heq, rfl, heq2⟩)
    · next evs heq2 =>
      split
      · next werr heq3 =>
        exact Or.inr (Or.inr (Or.inl ⟨k, evs, werr, heq, heq2, heq3, rfl⟩))
      · next heq3 =>
        exact Or.inr (Or.inr (Or.inr ⟨k, evs, heq, heq2, heq3, rfl⟩))

/-- C10: dispatch is total and infallible — for every path and any classifier
verdicts `GetParserForFile` returns some parser (the generic `LogParser` being
the terminal fallback), so the worker's failed-to-get-parser branch and its
`ErrUnsupportedFormat` skip branch are unreachable: the skip counter never
moves, and every new error is a parse error or a sink write error for the
file, never a dispatch error. -/
theorem c10_dispatch_total_and_worker_branches_dead (o : ClassifierOracle)
    (po : ParserKind → String → Except GoErr (List Event))
    (flt : Option (String → Bool)) (srt : List Event → List Event)
    (wo : List Event → Option GoErr)
    (st : WorkerState) (path : String) :
    (∃ k, getParserForFile o path = Except.ok k) ∧
    (workerProcessFile o po flt srt wo st path).filesSkipped = st.filesSkipped ∧
    (∀ e ∈ (workerProcessFile o po flt srt wo st path).errors,
      e ∈ st.errors ∨ (∃ inner, e = GoErr.failedToParse path inner) ∨
      (∃ inner, e = GoErr.failedToWrite path inner)) := by
  have hk : getParserForFile o path = Except.ok (parserKindFor o path) :=
    getParserForFile_ok o path
  have hshape := workerProcessFile_shape o po flt srt wo st path
  rcases hshape with ⟨p2, e2, he2, -, -⟩ | ⟨k2, err, hk2, h2, hpp⟩ |
    ⟨k2, evs, werr, hk2, hpp, hwo, h2⟩ | ⟨k2, evs, hk2, hpp, hwo, h2⟩
  · rw [hk] at he2
    cases he2
  · rw [h2]
    refine ⟨⟨parserKindFor o path, hk⟩, rfl, ?_⟩
    intro e he
    rcases List.mem_append.mp he with he | he
    · exact Or.inl he
    · exact Or.inr (Or.inl ⟨err, List.mem_singleton.mp he⟩)
  · rw [h2]
    refine ⟨⟨parserKindFor o path, hk⟩, rfl, ?_⟩
    intro e he
    rcases List.mem_append.mp he with he | he
    · exact Or.inl he
    · exact Or.inr (Or.inr ⟨werr, List.mem_singleton.mp he⟩)
  · rw [h2]
    exact ⟨⟨parserKindFor o path, hk⟩, rfl, fun e he => Or.inl he⟩

/-- C6: the SQLite sink commits its single-prepared-statement transaction
every 10,000 rows, creates `idx_events_timestamp` only in `Close()` after the
final commit, and after `Close()` the table holds every written event in
order: for any sequence of `Write` batches, the index is absent at open time
and through all writes, the open transaction always holds exactly
`total % 10000` rows, and after `Close()` the committed table equals the
concatenation of all batches with the index present. -/
theorem c6_sqlite_deferred_index_and_batching (batches : List (List Event)) :
    sqliteOpen.hasIndex = false ∧
    (batches.foldl sqliteWrite sqliteOpen).hasIndex = false ∧
    (batches.foldl sqliteWrite sqliteOpen).pending.length =
      batches.join.length % 10000 ∧
    (sqliteClose (batches.foldl sqliteWrite sqliteOpen)).hasIndex = true ∧
    (sqliteClose (batches.foldl sqliteWrite sqliteOpen)).committed = batches.join := by
  have main : ∀ (bs : List (List Event)) (db : SQLiteDB),
      (bs.foldl sqliteWrite db).written = db.written ++ bs.join ∧
      (bs.foldl sqliteWrite db).hasIndex = db.hasIndex ∧
      (sqliteInv db → sqliteInv (bs.foldl sqliteWrite db)) := by
    intro bs
    induction bs with
    | nil => intro db; simp
    | cons b rest ih =>
      intro db
      have h1 := sqliteWrite_written db b
      have h2 := ih (sqliteWrite db b)
      simp only [List.foldl_cons, List.join_cons]
      refine ⟨by rw [h2.1, h1.1, List.append_assoc], by rw [h2.2.1, h1.2.1],
        fun hv => h2.2.2 (h1.2.2 hv)⟩
  have h := main batches sqliteOpen
  have hinv : sqliteInv sqliteOpen := by
    constructor <;> simp [sqliteOpen]
  have hinv2 := h.2.2 hinv
  have hw : (batches.foldl sqliteWrite sqliteOpen).written = batches.join := by
    rw [h.1]
    simp [sqliteOpen, SQLiteDB.written]
  refine ⟨rfl, by rw [h.2.1]; rfl, ?_, rfl, ?_⟩
  · obtain ⟨h1, h2, h3⟩ := hinv2
    have := congrArg List.length hw
    simp only [SQLiteDB.written, List.length_append] at this
    omega
  · have hw2 : (batches.foldl sqliteWrite sqliteOpen).committed ++
        (batches.foldl sqliteWrite sqliteOpen).pending = batches.join := by
      simpa [SQLiteDB.written] using hw
    simp only [sqliteClose]
    exact hw2

theorem insertionSortByTs_spec (l : List Event) : goSortSpec l (insertionSortByTs l) :=
  ⟨List.perm_insertionSort evLe l, List.sorted_insertionSort evLe l⟩

/-- C2 counterexample: the worker sorts with `sort.Sort` (pdqsort), whose
contract on `core.Events` is only "permutation, non-decreasing in
`Timestamp.Before`" — it does NOT guarantee stability, and `sort.Stable` is
not used.  Concretely, for two tied events the swapped output satisfies the
full `sort.Sort` contract while violating insertion-order tie preservation,
so the claimed stable tie-break is not a property of the code. -/
theorem c2_sort_contract_allows_tie_swap :
    goSortSpec [evTieA, evTieB] [evTieB, evTieA] ∧
    ¬ stableTies [evTieA, evTieB] [evTieB, evTieA] := by
  refine ⟨⟨by decide, by decide⟩, fun h => ?_⟩
  have h100 := h 100
  revert h100
  decide

/-- C2 (amended): for every processed file whose batch reaches the sink, that
batch is the filtered event list sorted by timestamp ascending — a
permutation of the filtered events, pairwise non-decreasing in timestamp; the
relative order of events with equal timestamps is unspecified (`sort.Sort` is
not stable).  On a dispatch, parse or sink write error nothing is handed to
the sink. -/
theorem c2_worker_batch_sorted_by_timestamp (o : ClassifierOracle)
    (po : ParserKind → String → Except GoErr (List Event))
    (flt : Option (String → Bool)) (sortImpl : List Event → List Event)
    (wo : List Event → Option GoErr)
    (hsort : ∀ l, goSortSpec l (sortImpl l))
    (st : WorkerState) (path : String) :
    (workerProcessFile o po flt sortImpl wo st path).sink = st.sink ∨
    ∃ k events,
      getParserForFile o path = Except.ok k ∧
      parserParse po k path = Except.ok events ∧
      (workerProcessFile o po flt sortImpl wo st path).sink =
        st.sink ++ [sortImpl (applyFilter flt events)] ∧
      (sortImpl (applyFilter flt events)).Perm (applyFilter flt events) ∧
      (sortImpl (applyFilter flt events)).Pairwise
        (fun a b => a.timestamp ≤ b.timestamp) := by
  rcases workerProcessFile_shape o po flt sortImpl wo st path with
    ⟨p2, e2, he2, hwp, hdis⟩ | ⟨k2, err, hk2, h2, hpp⟩ |
    ⟨k2, evs, werr, hk2, hpp, hwo, h2⟩ | ⟨k2, evs, hk2, hpp, hwo, h2⟩
  · left
    rw [hwp]
    rcases hdis with h | h <;> rw [h]
  · left
    rw [h2]
  · left
    rw [h2]
  · right
    exact ⟨k2, evs, hk2, hpp, by rw [h2], (hsort _).1, (hsort _).2⟩

/-- C2 witness: the amended statement at a concrete instantiation (empty
parse result, insertion sort as the sorting routine, a writer that
succeeds). -/
theorem c2_worker_batch_sorted_by_timestamp_witness :
    (workerProcessFile oracleNone (fun _ _ => Except.ok []) none insertionSortByTs
        (fun _ => none) workerInit "/l/app.log").sink = workerInit.sink ∨
    ∃ k events,
      getParserForFile oracleNone "/l/app.log" = Except.ok k ∧
      parserParse (fun _ _ => Except.ok []) k "/l/app.log" = Except.ok events ∧
      (workerProcessFile oracleNone (fun _ _ => Except.ok []) none insertionSortByTs
          (fun _ => none) workerInit "/l/app.log").sink =
        workerInit.sink ++ [insertionSortByTs (applyFilter none events)] ∧
      (insertionSortByTs (applyFilter none events)).Perm (applyFilter none events) ∧
      (insertionSortByTs (applyFilter none events)).Pairwise
        (fun a b => a.timestamp ≤ b.timestamp) :=
  c2_worker_batch_sorted_by_timestamp oracleNone (fun _ _ => Except.ok []) none
    insertionSortByTs (fun _ => none) insertionSortByTs_spec workerInit "/l/app.log"

theorem linuxParseAux_length (now : Int) (src p : String) :
    ∀ (lines : List String) (n last : Int),
      (linuxParseAux now src p n last lines).length = countNonBlank lines := by
  intro lines
  induction lines with
  | nil => intro n last; rfl
  | cons l rest ih =>
    intro n last
    by_cases hb : isBlankLine l
    · rw [show linuxParseAux now src p n last (l :: rest) =
          linuxParseAux now src p (n + 1) last rest from by
        simp [linuxParseAux, hb]]
      rw [ih]
      simp [countNonBlank, List.filter_cons, hb]
    · rw [show linuxParseAux now src p n last (l :: rest) =
          (linuxLine now src p n last l).1 ::
            linuxParseAux now src p (n + 1) (linuxLine now src p n last l).2 rest from by
        simp [linuxParseAux, hb]]
      simp only [List.length_cons]
      rw [ih]
      simp [countNonBlank, List.filter_cons, hb]

theorem statelessParseAux_length (f : Int → String → Event) :
    ∀ (lines : List String) (n : Int),
      (statelessParseAux f n lines).length = countNonBlank lines := by
  intro lines
  induction lines with
  | nil => intro n; rfl
  | cons l rest ih =>
    intro n
    by_cases hb : isBlankLine l
    · rw [show statelessParseAux f n (l :: rest) = statelessParseAux f (n + 1) rest from by
        simp [statelessParseAux, hb]]
      rw [ih]
      simp [countNonBlank, List.filter_cons, hb]
    · rw [show statelessParseAux f n (l :: rest) =
          f n l :: statelessParseAux f (n + 1) rest from by
        simp [statelessParseAux, hb]]
      simp only [List.length_cons]
      rw [ih]
      simp [countNonBlank, List.filter_cons, hb]

theorem zeekParseAux_length (src p : String) :
    ∀ (lines : List String) (st : ZeekState) (n : Int),
      (zeekParseAux src p st n lines).length = zeekDataCount st lines := by
  intro lines
  induction lines with
  | nil => intro st n; rfl
  | cons l rest ih =>
    intro st n
    by_cases hb : isBlankLine l
    · rw [show zeekParseAux src p st n (l :: rest) = zeekParseAux src p st n rest from by
        simp [zeekParseAux, hb]]
      rw [ih]
      simp [zeekDataCount, hb]
    · by_cases hh : goHasPre "#" l
      · rw [show zeekParseAux src p st n (l :: rest) =
            zeekParseAux src p (zeekHeaderLine st l) n rest from by
          simp [zeekParseAux, hb, hh]]
        rw [ih]
        simp [zeekDataCount, hb, hh]
      · by_cases hf : st.fields = []
        · rw [show zeekParseAux src p st n (l :: rest) = zeekParseAux src p st n rest from by
            simp [zeekParseAux, hb, hh, hf]]
          rw [ih]
          simp [zeekDataCount, hb, hh, hf]
        · rw [show zeekParseAux src p st n (l :: rest) =
              zeekDataLine st src p (n + 1) l :: zeekParseAux src p st (n + 1) rest from by
            simp [zeekParseAux, hb, hh, hf]]
          simp only [List.length_cons]
          rw [ih]
          simp [zeekDataCount, hb, hh, hf]
          omega

/-- C8 counterexample: a Zeek data record that precedes any `#fields`
directive is non-blank and not a comment/header line, yet the parser drops it
silently (zeek.go lines 127-130 `continue` without logging): one non-blank
non-comment record in, zero events out. -/
theorem c8_zeek_pre_fields_record_dropped :
    zeekParse "/z/conn.log" ["1682087445.123456\ttcp\t10.0.0.1\t1234"] = [] ∧
    countNonBlank ["1682087445.123456\ttcp\t10.0.0.1\t1234"] = 1 ∧
    goHasPre "#" "1682087445.123456\ttcp\t10.0.0.1\t1234" = false := by
  decide

/-- C8 (amended): the Linux syslog and web-access parsers emit exactly one
event per non-blank line (blank lines are the only skipped records), and the
Zeek parser emits exactly one event per non-blank, non-`#` line seen while a
`#fields` directive is in force — so besides blank and comment/header lines,
a Zeek data record arriving before any `#fields` directive is also (silently)
dropped. -/
theorem c8_event_count_conservation (now : Int) (p : String) (lines : List String) :
    (linuxSyslogParse now p lines).length = countNonBlank lines ∧
    (webAccessParse p lines).length = countNonBlank lines ∧
    (zeekParse p lines).length = zeekDataCount zeekInitState lines := by
  exact ⟨linuxParseAux_length now (filepathBase p) p lines 1 goZeroTime,
    statelessParseAux_length (webLine (filepathBase p) p) lines 1,
    zeekParseAux_length (filepathBase p) p lines zeekInitState 0⟩

theorem strOk_append (p : Char → Bool) (s t : String)
    (hs : strOk p s = true) (ht : strOk p t = true) : strOk p (s ++ t) = true := by
  simp only [strOk, String.data_append, List.all_append, Bool.and_eq_true]
  exact ⟨hs, ht⟩

theorem digit_jsonSafe (d : Nat) (hd : d < 10) :
    jsonSafeCh (Char.ofNat (48 + d)) = true := by
  interval_cases d <;> decide

theorem decDigitsAux_safe : ∀ fuel n, (decDigitsAux fuel n).all jsonSafeCh = true := by
  intro fuel
  induction fuel with
  | zero => intro n; rfl
  | succ f ih =>
    intro n
    by_cases hn : n < 10
    · rw [show decDigitsAux (f + 1) n = [Char.ofNat (48 + n)] from by
        simp [decDigitsAux, hn]]
      simp [digit_jsonSafe n hn]
    · rw [show decDigitsAux (f + 1) n =
          Char.ofNat (48 + n % 10) :: decDigitsAux f (n / 10) from by
        simp [decDigitsAux, hn]]
      simp only [List.all_cons, Bool.and_eq_true]
      exact ⟨digit_jsonSafe _ (Nat.mod_lt _ (by norm_num)), ih _⟩

theorem intToStr_safe (n : Int) : strOk jsonSafeCh (intToStr n) = true := by
  unfold intToStr strOk
  by_cases hn : n < 0
  · rw [if_pos hn]
    simp only [List.all_cons, List.all_reverse, Bool.and_eq_true]
    exact ⟨by decide, decDigitsAux_safe 30 _⟩
  · rw [if_neg hn]
    simp only [List.all_reverse]
    exact decDigitsAux_safe 30 _

theorem pad2_safe (n : Int) : strOk jsonSafeCh (pad2 n) = true := by
  unfold pad2
  by_cases h : n < 10
  · rw [if_pos h]
    exact strOk_append _ _ _ (by decide) (intToStr_safe n)
  · rw [if_neg h]
    exact intToStr_safe n

theorem pad4_safe (n : Int) : strOk jsonSafeCh (pad4 n) = true := by
  unfold pad4
  by_cases h1 : n < 10
  · rw [if_pos h1]
    exact strOk_append _ _ _ (by decide) (intToStr_safe n)
  · rw [if_neg h1]
    by_cases h2 : n < 100
    · rw [if_pos h2]
      exact strOk_append _ _ _ (by decide) (intToStr_safe n)
    · rw [if_neg h2]
      by_cases h3 : n < 1000
      · rw [if_pos h3]
        exact strOk_append _ _ _ (by decide) (intToStr_safe n)
      · rw [if_neg h3]
        exact intToStr_safe n

theorem all_dropWhile (q pch : Char → Bool) (l : List Char) (h : l.all pch = true) :
    (l.dropWhile q).all pch = true := by
  rw [List.all_eq_true] at h ⊢
  intro x hx
  exact h x ((List.dropWhile_sublist q).subset hx)

theorem all_replicate_zero (k : Nat) : (List.replicate k '0').all jsonSafeCh = true := by
  rw [List.all_eq_true]
  intro x hx
  rw [List.eq_of_mem_replicate hx]
  decide

theorem fracString_safe (ns : Int) : strOk jsonSafeCh (fracString ns) = true := by
  unfold fracString
  by_cases h : ns = 0
  · rw [if_pos h]
    rfl
  · rw [if_neg h]
    simp only [strOk, List.all_cons, List.all_reverse, Bool.and_eq_true]
    refine ⟨by decide, ?_⟩
    apply all_dropWhile
    rw [List.all_reverse, List.all_append]
    simp only [Bool.and_eq_true]
    exact ⟨all_replicate_zero _, by
      rw [List.all_reverse]
      exact decDigitsAux_safe 30 _⟩

theorem formatRFC3339Nano_safe (t : Int) :
    strOk jsonSafeCh (formatRFC3339Nano t) = true := by
  unfold formatRFC3339Nano
  refine strOk_append _ _ _ (strOk_append _ _ _ (strOk_append _ _ _ (strOk_append _ _ _
    (strOk_append _ _ _ (strOk_append _ _ _ (strOk_append _ _ _ (strOk_append _ _ _
    (strOk_append _ _ _ (strOk_append _ _ _ (strOk_append _ _ _ (strOk_append _ _ _
    (pad4_safe _) (by decide)) (pad2_safe _)) (by decide)) (pad2_safe _)) (by decide))
    (pad2_safe _)) (by decide)) (pad2_safe _)) (by decide)) (pad2_safe _))
    (fracString_safe _)) (by decide)

theorem jsonEscapeChar_safe (a : Char) :
    (jsonEscapeChar true a).all jsonSafeCh = true := by
  unfold jsonEscapeChar
  by_cases h1 : a = '"'
  · rw [if_pos h1]
    decide
  · rw [if_neg h1]
    by_cases h2 : a = '\\'
    · rw [if_pos h2]
      decide
    · rw [if_neg h2]
      by_cases h3 : a = '<'
      · rw [if_pos (show (true = true) ∧ a = '<' from ⟨rfl, h3⟩)]
        decide
      · rw [if_neg (show ¬((true = true) ∧ a = '<') from fun hc => h3 hc.2)]
        by_cases h4 : a = '>'
        · rw [if_pos (show (true = true) ∧ a = '>' from ⟨rfl, h4⟩)]
          decide
        · rw [if_neg (show ¬((true = true) ∧ a = '>') from fun hc => h4 hc.2)]
          by_cases h5 : a = '&'
          · rw [if_pos (show (true = true) ∧ a = '&' from ⟨rfl, h5⟩)]
            decide
          · rw [if_neg (show ¬((true = true) ∧ a = '&') from fun hc => h5 hc.2)]
            by_cases h6 : a = '\n'
            · rw [if_pos h6]
              decide
            · rw [if_neg h6]
              by_cases h7 : a = '\r'
              · rw [if_pos h7]
                decide
              · rw [if_neg h7]
                by_cases h8 : a = '\t'
                · rw [if_pos h8]
                  decide
                · rw [if_neg h8]
                  by_cases h9 : a.toNat < 32
                  · rw [if_pos h9]
                    have hd1 : jsonSafeCh (Char.ofNat (48 + a.toNat / 16)) = true := by
                      have h16 : a.toNat / 16 = 0 ∨ a.toNat / 16 = 1 := by omega
                      rcases h16 with h | h <;> rw [h] <;> decide
                    have hd2 : jsonSafeCh
                        (if a.toNat % 16 < 10 then Char.ofNat (48 + a.toNat % 16)
                         else Char.ofNat (87 + a.toNat % 16)) = true := by
                      by_cases hlt : a.toNat % 16 < 10
                      · rw [if_pos hlt]
                        exact digit_jsonSafe _ hlt
                      · rw [if_neg hlt]
                        have h16 : a.toNat % 16 = 10 ∨ a.toNat % 16 = 11 ∨
                            a.toNat % 16 = 12 ∨ a.toNat % 16 = 13 ∨
                            a.toNat % 16 = 14 ∨ a.toNat % 16 = 15 := by omega
                        rcases h16 with h | h | h | h | h | h <;> rw [h] <;> decide
                    simp only [List.all_cons, List.all_nil, Bool.and_true,
                      Bool.and_eq_true]
                    exact ⟨by decide, by decide, by decide, by decide, hd1, hd2⟩
                  · rw [if_neg h9]
                    simp only [List.all_cons, List.all_nil, Bool.and_true, jsonSafeCh,
                      decide_eq_true_eq]
                    exact ⟨h3, h4, h5, h6⟩

theorem jsonQuote_safe (s : String) : strOk jsonSafeCh (jsonQuote true s) = true := by
  simp only [strOk, jsonQuote, List.all_cons, List.all_append, Bool.and_eq_true]
  refine ⟨by decide, ?_, by decide⟩
  rw [List.all_eq_true]
  intro x hx
  rw [List.mem_flatMap] at hx
  obtain ⟨a, _, hxa⟩ := hx
  have hall := jsonEscapeChar_safe a
  rw [List.all_eq_true] at hall
  exact hall x hxa

theorem joinComma_safe (l : List String) (h : ∀ s ∈ l, strOk jsonSafeCh s = true) :
    strOk jsonSafeCh (joinComma l) = true := by
  induction l with
  | nil => rfl
  | cons a rest ih =>
    cases rest with
    | nil => exact h a (by simp)
    | cons b rest2 =>
      refine strOk_append _ _ _ (strOk_append _ _ _ (h a (by simp)) (by decide)) (ih ?_)
      intro t ht
      exact h t (by simp [ht])

theorem marshalEvent_safe (e : Event) : strOk jsonSafeCh (marshalEvent true e) = true := by
  have htags : strOk jsonSafeCh (if e.tags = [] then ""
      else ",\"tags\":[" ++ joinComma (e.tags.map (jsonQuote true)) ++ "]") = true := by
    by_cases ht : e.tags = []
    · rw [if_pos ht]
      rfl
    · rw [if_neg ht]
      refine strOk_append _ _ _ (strOk_append _ _ _ (by decide) ?_) (by decide)
      refine joinComma_safe _ ?_
      intro t hmem
      rw [List.mem_map] at hmem
      obtain ⟨u, _, rfl⟩ := hmem
      exact jsonQuote_safe u
  have hscore : strOk jsonSafeCh (if e.score = 0 then ""
      else ",\"score\":" ++ intToStr e.score) = true := by
    by_cases hs : e.score = 0
    · rw [if_pos hs]
      rfl
    · rw [if_neg hs]
      exact strOk_append _ _ _ (by decide) (intToStr_safe _)
  have hsum : strOk jsonSafeCh (if e.summary = "" then ""
      else ",\"summary\":" ++ jsonQuote true e.summary) = true := by
    by_cases hs : e.summary = ""
    · rw [if_pos hs]
      rfl
    · rw [if_neg hs]
      exact strOk_append _ _ _ (by decide) (jsonQuote_safe _)
  unfold marshalEvent
  exact (strOk_append _ _ _ (strOk_append _ _ _ (strOk_append _ _ _ (strOk_append _ _ _
    (strOk_append _ _ _ (strOk_append _ _ _ (strOk_append _ _ _ (strOk_append _ _ _
    (strOk_append _ _ _ (strOk_append _ _ _ (strOk_append _ _ _ (strOk_append _ _ _
    (strOk_append _ _ _ (strOk_append _ _ _ (strOk_append _ _ _ (strOk_append _ _ _
    (strOk_append _ _ _ (strOk_append _ _ _ (strOk_append _ _ _ (by decide)
    (jsonQuote_safe _)) (by decide)) (jsonQuote_safe _)) (by decide)) (jsonQuote_safe _))
    (by decide)) (intToStr_safe _)) (by decide)) (jsonQuote_safe _)) (by decide))
    (jsonQuote_safe _)) (by decide)) (jsonQuote_safe _)) (by decide)) (jsonQuote_safe _))
    htags) hscore) hsum) (by decide))

theorem count_filter_zero (l : List Char) (c : Char)
    (h : l.all jsonSafeCh = true) (hc : jsonSafeCh c = false) :
    (l.filter (fun x => x = c)).length = 0 := by
  induction l with
  | nil => rfl
  | cons a t ih =>
    rw [List.all_cons, Bool.and_eq_true] at h
    have hne : ¬ a = c := by
      intro he
      rw [he, hc] at h
      exact Bool.noConfusion h.1
    have h2 := ih h.2
    simp [List.filter_cons, hne, h2]

theorem countCh_eq_zero_of_all (s : String) (c : Char)
    (h : strOk jsonSafeCh s = true) (hc : jsonSafeCh c = false) : countCh s c = 0 :=
  count_filter_zero s.data c h hc

theorem countCh_append (s t : String) (c : Char) :
    countCh (s ++ t) c = countCh s c + countCh t c := by
  simp [countCh, String.data_append, List.filter_append]

/-- C7 counterexample: the live JSONL sink (src/output/jsonl.go) marshals with
plain `json.Marshal`, whose default HTML escaping is NOT disabled — no
`json.Encoder` with `SetEscapeHTML(false)` is involved.  For a message `a<b`
the output bytes contain `\u003c` and no raw `<` at all (while still being
exactly one newline-terminated object). -/
theorem c7_html_escaping_enabled_counterexample :
    goContains (jsonlWriteString [evAngle]) "\\u003c" = true ∧
    countCh (jsonlWriteString [evAngle]) '<' = 0 ∧
    countCh (jsonlWriteString [evAngle]) '\n' = 1 := by
  decide

/-- C7 (amended): the JSON Lines sink writes each event as exactly one JSON
object followed by a newline, with `json.Marshal`'s default HTML escaping in
force: `<`, `>`, `&` in string fields are emitted as `\u003c`, `\u003e`,
`\u0026`, never raw — the output bytes of any batch contain exactly one
newline per event and no raw occurrence of the three characters. -/
theorem c7_jsonl_one_escaped_object_per_event (events : List Event) :
    countCh (jsonlWriteString events) '\n' = events.length ∧
    countCh (jsonlWriteString events) '<' = 0 ∧
    countCh (jsonlWriteString events) '>' = 0 ∧
    countCh (jsonlWriteString events) '&' = 0 := by
  induction events with
  | nil => exact ⟨rfl, rfl, rfl, rfl⟩
  | cons e rest ih =>
    obtain ⟨ih1, ih2, ih3, ih4⟩ := ih
    have hm := marshalEvent_safe e
    rw [show jsonlWriteString (e :: rest) =
        (marshalEvent true e ++ "\n") ++ jsonlWriteString rest from rfl]
    refine ⟨?_, ?_, ?_, ?_⟩
    · rw [countCh_append, countCh_append, ih1,
        countCh_eq_zero_of_all _ _ hm (by decide),
        show countCh "\n" '\n' = 1 from by decide]
      simp [List.length_cons]
      omega
    · rw [countCh_append, countCh_append, ih2,
        countCh_eq_zero_of_all _ _ hm (by decide),
        show countCh "\n" '<' = 0 from by decide]
    · rw [countCh_append, countCh_append, ih3,
        countCh_eq_zero_of_all _ _ hm (by decide),
        show countCh "\n" '>' = 0 from by decide]
    · rw [countCh_append, countCh_append, ih4,
        countCh_eq_zero_of_all _ _ hm (by decide),
        show countCh "\n" '&' = 0 from by decide]

end LogZero
